import Mathlib

/-!
Verification of the Twilio message reconciliation engine
(`src/server/services/twilio/history-sync` — the `syncConversationFromTwilio`
module — and `src/server/services/twilio/bulk-sync.ts`), shallowly embedded
in Lean.

Conventions of the embedding:
* JS `string | null | undefined` becomes `Option String`; the JS truthiness
  test `!value` (which is true for `null`, `undefined` and `""`) is modelled
  by `jsFalsy`.
* Dates are epoch milliseconds (`Nat`); `date?.getTime?.() ?? 0` becomes
  `Option.getD _ 0`; `new Date()` (the current time) is an explicit `now`
  parameter.
* `parseInt((msg.numMedia as any) || '0', 10)` is modelled by storing
  `numMedia : Option Nat` and reading it with `Option.getD _ 0`.
* I/O collaborators are parameters: the two Twilio list calls become the
  `outbound`/`inbound` input lists, and the media list call (whose failures
  the source catches and downgrades to `[]`) becomes a pure
  `resolveMedia : String → List String` function.
* The relational store is an explicit `DB` record of lists; Prisma's unique
  constraints (`messages.twilioSid`, `channels (type, identifier)`) make
  `create` fail with an error, modelled with an `Option SyncError` /
  `Option String` outcome that aborts exactly where the source's exception
  would propagate.
* JS `Map` is an insertion-ordered association list: `set` on an existing
  key replaces the value in place, and `Array.from(map.values())` is the
  list of values in that order.  JS `Array.prototype.sort` is stable
  (ES2019), modelled by a stable insertion sort.
-/

set_option autoImplicit false

inductive ChannelType where
  | SMS
  | MMS
  | WHATSAPP
  | MESSENGER
deriving Repr, DecidableEq

inductive Direction where
  | INBOUND
  | OUTBOUND
deriving Repr, DecidableEq

inductive MessageStatus where
  | QUEUED
  | SENDING
  | SENT
  | DELIVERED
  | READ
  | FAILED
  | UNDELIVERED
  | CANCELED
deriving Repr, DecidableEq

/-- One raw record returned by `twilioClient.messages.list` (the
`TwilioListMessage` shape the sync code reads). -/
structure TwilioMsg where
  sid : Option String
  «from» : Option String
  «to» : Option String
  body : Option String
  status : Option String
  direction : Option String
  numMedia : Option Nat
  dateCreated : Option Nat
  dateUpdated : Option Nat
  dateSent : Option Nat
  errorCode : Option Int
  errorMessage : Option String
deriving Repr, DecidableEq

/-- Character-list model of `String.toLower` / JS `toLowerCase` (the
built-in is opaque to kernel reduction, so concrete runs could not be
evaluated with it). -/
def strLower (s : String) : String :=
  ⟨s.data.map Char.toLower⟩

/-- Character-list model of `String.startsWith` / JS `startsWith`. -/
def strStartsWith (s p : String) : Bool :=
  p.data.isPrefixOf s.data

/-- Character-list model of `String.drop`. -/
def strDrop (s : String) (n : Nat) : String :=
  ⟨s.data.drop n⟩

/-- JS truthiness of an optional string: `null`, `undefined` and `""` are
falsy. -/
def jsFalsy : Option String → Bool
  | none => true
  | some s => s = ""

/-- JS `a || b` for an optional string and a string default. -/
def jsOr (a : Option String) (b : String) : String :=
  match a with
  | none => b
  | some s => if s = "" then b else s

/-- Source (both sync modules): `stripTransportPrefix` — returns `''` for a
falsy value, removes a leading `whatsapp:` scheme marker, otherwise the
identity. -/
def stripTransportPrefix (value : Option String) : String :=
  match value with
  | none => ""
  | some s =>
    if s = "" then ""
    else if strStartsWith s "whatsapp:" then strDrop s 9
    else s

/-- Source (`client.ts`): `mapTwilioStatus` — case-insensitive fixed table,
anything unrecognized maps to `QUEUED`. -/
def mapTwilioStatus (twilioStatus : String) : MessageStatus :=
  let t := strLower twilioStatus
  if t = "queued" then .QUEUED
  else if t = "sending" then .SENDING
  else if t = "sent" then .SENT
  else if t = "delivered" then .DELIVERED
  else if t = "undelivered" then .UNDELIVERED
  else if t = "failed" then .FAILED
  else if t = "read" then .READ
  else if t = "canceled" then .CANCELED
  else .QUEUED

/-- Source (both sync modules): `inferChannelTypeFromTwilioMessage` —
WHATSAPP if either address carries the `whatsapp:` marker, else MMS when
the declared media count is positive, else SMS. -/
def inferChannelTypeFromTwilioMessage (message : TwilioMsg) : ChannelType :=
  let f := jsOr message.«from» ""
  let t := jsOr message.«to» ""
  if strStartsWith f "whatsapp:" || strStartsWith t "whatsapp:" then .WHATSAPP
  else if message.numMedia.getD 0 > 0 then .MMS
  else .SMS

namespace HistorySync

/-- Source (`syncConversationFromTwilio` module, lines 37–41):
direction from the record's Twilio `direction` hint — INBOUND exactly when
the lowercased hint starts with `inbound`, OUTBOUND otherwise (also when the
hint is absent). -/
def inferDirectionFromTwilioMessage (message : TwilioMsg) : Direction :=
  let dir := strLower (jsOr message.direction "")
  if strStartsWith dir "inbound" then .INBOUND else .OUTBOUND

end HistorySync

namespace BulkSync

/-- Source (`bulk-sync.ts`, lines 23–27): direction from the set of the
account's own numbers — OUTBOUND exactly when the stripped from-address is
one of ours. -/
def inferDirectionFromTwilioMessage (message : TwilioMsg)
    (ourNumbers : List String) : Direction :=
  let f := stripTransportPrefix message.«from»
  if f ∈ ourNumbers then .OUTBOUND else .INBOUND

end BulkSync

/-- Media resolution (`maybeFetchMediaUrls` in both modules): no I/O when
the declared count parses to 0, otherwise one list-media call whose
failures the source catches and downgrades to `[]`; `resolveMedia` is that
call's (post-catch) result. -/
def maybeFetchMediaUrls (resolveMedia : String → List String)
    (messageSid : String) (numMedia : Option Nat) : List String :=
  if numMedia.getD 0 = 0 then [] else resolveMedia messageSid

/-- JS `value || undefined` for an optional string: the empty string is
collapsed to `undefined`. -/
def jsOrUndefined (a : Option String) : Option String :=
  match a with
  | none => none
  | some s => if s = "" then none else some s

/-- Sort key of the merge (`a.dateCreated?.getTime?.() ?? 0`). -/
def timeOf (m : TwilioMsg) : Nat :=
  m.dateCreated.getD 0

/-- The SID under which the sync code files a record: `none` when the
record's `sid` is JS-falsy (`if (msg.sid)` / `if (!sid) continue`). -/
def goodSid (m : TwilioMsg) : Option String :=
  match m.sid with
  | none => none
  | some s => if s = "" then none else some s

/-- The non-falsy SIDs of a record list, in order. -/
def sidsOf (l : List TwilioMsg) : List String :=
  l.filterMap goodSid

/-- JS `Map.set`: replace in place when the key is present (keeping the
original insertion position), append otherwise. -/
def mapSet (m : List (String × TwilioMsg)) (k : String) (v : TwilioMsg) :
    List (String × TwilioMsg) :=
  match m with
  | [] => [(k, v)]
  | (k1, v1) :: rest =>
    if k1 = k then (k, v) :: rest else (k1, v1) :: mapSet rest k v

/-- JS `Map.get`. -/
def mapLookup (m : List (String × TwilioMsg)) (k : String) : Option TwilioMsg :=
  match m with
  | [] => none
  | (k1, v1) :: rest => if k1 = k then some v1 else mapLookup rest k

/-- One step of the dedup fold (`if (msg.sid) bySid.set(msg.sid, msg)`): a
record with a falsy SID is not inserted at all. -/
def dedupeStep (acc : List (String × TwilioMsg)) (msg : TwilioMsg) :
    List (String × TwilioMsg) :=
  match goodSid msg with
  | none => acc
  | some s => mapSet acc s msg

/-- Source (`syncConversationFromTwilio`, lines 124–128): fold the
concatenated lists into a `Map` keyed by SID. -/
def dedupeBySid (msgs : List TwilioMsg) : List (String × TwilioMsg) :=
  msgs.foldl dedupeStep []

/-- Insert keeping the accumulator sorted by `timeOf`; a new element goes
after every element whose key is `≤` its own, which makes the fold below a
stable sort. -/
def insertByTime (x : TwilioMsg) : List TwilioMsg → List TwilioMsg
  | [] => [x]
  | y :: ys => if timeOf y ≤ timeOf x then y :: insertByTime x ys else x :: y :: ys

/-- Stable sort by `dateCreated` ascending — the model of the JS
`sort((a, b) => ta - tb)` call (ES2019 sorts are stable; the comparator has
no tiebreak). -/
def sortByDateCreated (l : List TwilioMsg) : List TwilioMsg :=
  l.foldl (fun acc x => insertByTime x acc) []

/-- Source (`syncConversationFromTwilio`, lines 124–134): concatenate
outbound then inbound, dedupe by SID, sort the map values by
`dateCreated`. -/
def mergeTwilioLists (outbound inbound : List TwilioMsg) : List TwilioMsg :=
  sortByDateCreated ((dedupeBySid (outbound ++ inbound)).map Prod.snd)

/-- Source (`syncConversationFromTwilio`, line 136): keep only the most
recent `limit` records of the merged stream
(`unique.slice(unique.length - limit)`). -/
def slicedOf (outbound inbound : List TwilioMsg) (limit : Nat) : List TwilioMsg :=
  let unique := mergeTwilioLists outbound inbound
  if unique.length > limit then unique.drop (unique.length - limit) else unique

structure Contact where
  id : String
  name : String
deriving Repr, DecidableEq

structure Channel where
  contactId : String
  type : ChannelType
  identifier : String
  isPrimary : Bool
deriving Repr, DecidableEq

structure Conversation where
  id : String
  contactId : String
  channelType : ChannelType
  lastMessage : Option String
  lastMessageAt : Option Nat
deriving Repr, DecidableEq

structure Message where
  id : Nat
  twilioSid : Option String
  conversationId : String
  direction : Direction
  channelType : ChannelType
  «from» : String
  «to» : String
  body : String
  mediaUrls : List String
  status : MessageStatus
  errorCode : Option String
  errorMessage : Option String
  sentAt : Option Nat
  deliveredAt : Option Nat
  readAt : Option Nat
  createdAt : Nat
  updatedAt : Nat
deriving Repr, DecidableEq

/-- Append-only status history row (`rawPayload`, an opaque JSON snapshot,
is not modelled). -/
structure StatusEvent where
  messageId : Nat
  status : MessageStatus
  timestamp : Nat
deriving Repr, DecidableEq

/-- The relational store. `nextId` generates fresh primary keys for created
rows (Prisma cuid/autoincrement). -/
structure DB where
  contacts : List Contact
  channels : List Channel
  conversations : List Conversation
  messages : List Message
  statusEvents : List StatusEvent
  nextId : Nat
deriving Repr, DecidableEq

inductive SyncError where
  | conversationNotFound
  | uniqueSidViolation (sid : String)
deriving Repr, DecidableEq

/-- The unique index `messages_twilioSid_key`: is some row already carrying
this SID? -/
def sidTaken (db : DB) (sid : String) : Bool :=
  db.messages.any (fun m => m.twilioSid = some sid)

/-- Prisma `message.update({ where: { id } })`: patch the unique row with
that id. -/
def dbUpdateMessage (db : DB) (id : Nat) (patch : Message → Message) : DB :=
  { db with messages := db.messages.map (fun m => if m.id = id then patch m else m) }

/-- Prisma `conversation.update({ where: { id } })`. -/
def dbUpdateConversation (db : DB) (id : String) (patch : Conversation → Conversation) : DB :=
  { db with conversations :=
      db.conversations.map (fun c => if c.id = id then patch c else c) }

structure SyncCounts where
  inserted : Nat
  updated : Nat
deriving Repr, DecidableEq

/-- The non-null provider SIDs stored in the message table, in row order. -/
def msgSids (db : DB) : List String :=
  db.messages.filterMap Message.twilioSid

/-- The primary keys of the message table, in row order. -/
def msgIds (db : DB) : List Nat :=
  db.messages.map Message.id

/-- Store well-formedness: the `messages_twilioSid_key` unique index holds,
primary keys are unique, and the id generator is ahead of every row. -/
def dbWf (db : DB) : Prop :=
  (msgSids db).Nodup ∧ (msgIds db).Nodup ∧ ∀ m ∈ db.messages, m.id < db.nextId

instance dbWfDecidable (db : DB) : Decidable (dbWf db) := by
  unfold dbWf
  exact inferInstance

/-- Prisma `message.findMany({ where: { twilioSid: sid } })`, first row. -/
def dbFind (db : DB) (sid : String) : Option Message :=
  db.messages.find? (fun m => m.twilioSid = some sid)

/-- The local status mapped from a record
(`mapTwilioStatus(twilioMsg.status || 'queued')`). -/
def recStatus (m : TwilioMsg) : MessageStatus :=
  mapTwilioStatus (jsOr m.status "queued")

/-- The media URL list the loop resolves for a record
(`includeMedia ? await maybeFetchMediaUrls(...) : []`). -/
def recMedia (includeMedia : Bool) (resolveMedia : String → List String)
    (sid : String) (m : TwilioMsg) : List String :=
  if includeMedia then maybeFetchMediaUrls resolveMedia sid m.numMedia else []

/-- The record's `createdAt` (`dateCreated ? ... : new Date()`). -/
def recCreatedAt (now : Nat) (m : TwilioMsg) : Nat :=
  m.dateCreated.getD now

/-- The record's `updatedAt` (`dateUpdated ? ... : createdAt`). -/
def recUpdatedAt (now : Nat) (m : TwilioMsg) : Nat :=
  m.dateUpdated.getD (recCreatedAt now m)

/-- The condition under which the single-conversation upsert loop skips a
record entirely (`!shouldUpdateStatus && !shouldUpdateMedia`): the stored
status equals the mapped status, and it is not the case that media is
enabled, the stored media list is empty and the newly resolved one is
non-empty. -/
def skipCond (includeMedia : Bool) (resolveMedia : String → List String)
    (row : Message) (sid : String) (m : TwilioMsg) : Prop :=
  row.status = recStatus m ∧
    ¬(includeMedia = true ∧ row.mediaUrls.length = 0 ∧
      (recMedia includeMedia resolveMedia sid m).length > 0)

instance skipCondDecidable (includeMedia : Bool)
    (resolveMedia : String → List String) (row : Message) (sid : String)
    (m : TwilioMsg) : Decidable (skipCond includeMedia resolveMedia row sid m) := by
  unfold skipCond
  exact inferInstance

namespace HistorySync

/-- The per-run constants of `syncConversationFromTwilio`'s upsert loop. -/
structure SyncContext where
  conversationId : String
  includeMedia : Bool
  resolveMedia : String → List String
  now : Nat

/-- Source (`syncConversationFromTwilio`, lines 176–210): the `Message` row
created for a record not yet known locally, with its derived attributes. -/
def createdRow (ctx : SyncContext) (id : Nat) (sid : String) (twilioMsg : TwilioMsg) :
    Message :=
  let status := recStatus twilioMsg
  let updatedAt := recUpdatedAt ctx.now twilioMsg
  { id := id
    twilioSid := some sid
    conversationId := ctx.conversationId
    direction := HistorySync.inferDirectionFromTwilioMessage twilioMsg
    channelType := inferChannelTypeFromTwilioMessage twilioMsg
    «from» := stripTransportPrefix twilioMsg.«from»
    «to» := stripTransportPrefix twilioMsg.«to»
    body := jsOr twilioMsg.body ""
    mediaUrls := recMedia ctx.includeMedia ctx.resolveMedia sid twilioMsg
    status := status
    errorCode := twilioMsg.errorCode.map toString
    errorMessage := jsOrUndefined twilioMsg.errorMessage
    sentAt := twilioMsg.dateSent
    deliveredAt :=
      if status = .DELIVERED ∨ status = .READ then some updatedAt else none
    readAt := if status = .READ then some updatedAt else none
    createdAt := recCreatedAt ctx.now twilioMsg
    updatedAt := updatedAt }

/-- Source (`syncConversationFromTwilio`, lines 222–235): the `data` object
of the `message.update` call — the spread conditions read the snapshot row
`current`, and what the spreads leave out keeps the live row's value. -/
def updatePatch (ctx : SyncContext) (current : Message) (sid : String)
    (twilioMsg : TwilioMsg) (m : Message) : Message :=
  let status := recStatus twilioMsg
  let updatedAt := recUpdatedAt ctx.now twilioMsg
  let sentAt := twilioMsg.dateSent
  let mediaUrls := recMedia ctx.includeMedia ctx.resolveMedia sid twilioMsg
  let shouldUpdateMedia : Bool :=
    ctx.includeMedia && current.mediaUrls.length == 0 && mediaUrls.length > 0
  { m with
      status := status
      errorCode := twilioMsg.errorCode.map toString
      errorMessage := jsOrUndefined twilioMsg.errorMessage
      sentAt := if sentAt.isSome && current.sentAt.isNone then sentAt else m.sentAt
      deliveredAt :=
        if status == .DELIVERED && current.deliveredAt.isNone then some updatedAt
        else if status == .READ && current.readAt.isNone then
          some (current.deliveredAt.getD updatedAt)
        else m.deliveredAt
      readAt :=
        if status == .READ && current.readAt.isNone then some updatedAt
        else m.readAt
      mediaUrls := if shouldUpdateMedia then mediaUrls else m.mediaUrls
      updatedAt := updatedAt }

/-- Source (`syncConversationFromTwilio`, lines 150–254): one iteration of
the sequential upsert loop.  `snapshot` is the `existingBySid` map computed
from the `findMany` issued before the loop; a create that races an existing
row with the same SID hits the `messages_twilioSid_key` unique index and
the exception propagates (third component `some e`). -/
def processRecord (ctx : SyncContext) (snapshot : String → Option Message)
    (db : DB) (counts : SyncCounts) (twilioMsg : TwilioMsg) :
    DB × SyncCounts × Option SyncError :=
  match goodSid twilioMsg with
  | none => (db, counts, none)
  | some sid =>
    match snapshot sid with
    | none =>
      if sidTaken db sid then (db, counts, some (.uniqueSidViolation sid))
      else
        ({ db with
            messages := db.messages ++ [createdRow ctx db.nextId sid twilioMsg]
            statusEvents := db.statusEvents ++
              [⟨db.nextId, recStatus twilioMsg, recUpdatedAt ctx.now twilioMsg⟩]
            nextId := db.nextId + 1 },
          { counts with inserted := counts.inserted + 1 }, none)
    | some current =>
      let shouldUpdateStatus : Bool := current.status ≠ recStatus twilioMsg
      let shouldUpdateMedia : Bool :=
        ctx.includeMedia && current.mediaUrls.length == 0 &&
          (recMedia ctx.includeMedia ctx.resolveMedia sid twilioMsg).length > 0
      if !shouldUpdateStatus && !shouldUpdateMedia then (db, counts, none)
      else
        let db1 := dbUpdateMessage db current.id (updatePatch ctx current sid twilioMsg)
        let db2 :=
          if shouldUpdateStatus then
            { db1 with statusEvents := db1.statusEvents ++
                [⟨current.id, recStatus twilioMsg, recUpdatedAt ctx.now twilioMsg⟩] }
          else db1
        (db2, { counts with updated := counts.updated + 1 }, none)

/-- The sequential loop over the sliced records; the first error aborts the
rest (the source has no per-record catch). -/
def processRecords (ctx : SyncContext) (snapshot : String → Option Message) :
    DB → SyncCounts → List TwilioMsg → DB × SyncCounts × Option SyncError
  | db, counts, [] => (db, counts, none)
  | db, counts, msg :: rest =>
    match processRecord ctx snapshot db counts msg with
    | (db1, counts1, some e) => (db1, counts1, some e)
    | (db1, counts1, none) => processRecords ctx snapshot db1 counts1 rest

/-- Source (`syncConversationFromTwilio`, lines 256–268): best-effort
conversation summary from the last element of the sliced list. -/
def updateConversationSummary (ctx : SyncContext) (sliced : List TwilioMsg)
    (db : DB) : DB :=
  match sliced.getLast? with
  | none => db
  | some last =>
    if jsFalsy last.sid then db
    else
      let lastBody :=
        jsOr last.body (if last.numMedia.getD 0 > 0 then "[Media]" else "")
      let lastAt := last.dateCreated.getD ctx.now
      dbUpdateConversation db ctx.conversationId (fun c =>
        { c with
            lastMessage := if lastBody = "" then none else some lastBody
            lastMessageAt := some lastAt })

structure SyncConversationFromTwilioResult where
  inserted : Nat
  updated : Nat
  twilioFetched : Nat
deriving Repr, DecidableEq

/-- Source (`syncConversationFromTwilio`, lines 74–273), from the point the
two directional Twilio fetches have returned (`outbound`/`inbound` model
the two `messages.list` results; the channel/address resolution feeding
those fetches is out of the model).  Returns the final store together with
the result, or the error at which the run aborted. -/
def syncConversationFromTwilio (db : DB) (conversationId : String)
    (outbound inbound : List TwilioMsg) (limit : Nat) (includeMedia : Bool)
    (resolveMedia : String → List String) (now : Nat) :
    DB × Except SyncError SyncConversationFromTwilioResult :=
  if (db.conversations.find? (fun c => c.id = conversationId)).isNone then
    (db, .error .conversationNotFound)
  else
    let ctx : SyncContext := ⟨conversationId, includeMedia, resolveMedia, now⟩
    let sliced := slicedOf outbound inbound limit
    let snapshot := dbFind db
    match processRecords ctx snapshot db ⟨0, 0⟩ sliced with
    | (db1, _, some e) => (db1, .error e)
    | (db1, counts, none) =>
      (updateConversationSummary ctx sliced db1,
        .ok ⟨counts.inserted, counts.updated, sliced.length⟩)

end HistorySync

namespace BulkSync

structure BulkSyncResult where
  contactsCreated : Nat
  conversationsCreated : Nat
  messagesInserted : Nat
  messagesUpdated : Nat
  totalFetched : Nat
  errors : List String
deriving Repr, DecidableEq

/-- Push onto the list held at key `k` of an insertion-ordered JS `Map`,
creating the entry on first sight of `k`. -/
def groupInsert (m : List (String × List TwilioMsg)) (k : String) (v : TwilioMsg) :
    List (String × List TwilioMsg) :=
  match m with
  | [] => [(k, [v])]
  | (k1, vs) :: rest =>
    if k1 = k then (k1, vs ++ [v]) :: rest else (k1, vs) :: groupInsert rest k v

/-- Source (`bulk-sync.ts`, lines 107–121): group the flat fetch result by
the counterparty address — the stripped `to` when the stripped `from` is
one of our numbers, the stripped `from` otherwise; records whose
counterparty address is falsy are skipped. -/
def messagesByContact (ourNumbers : List String) (msgs : List TwilioMsg) :
    List (String × List TwilioMsg) :=
  msgs.foldl
    (fun acc msg =>
      let f := stripTransportPrefix msg.«from»
      let t := stripTransportPrefix msg.«to»
      let contactNumber := if f ∈ ourNumbers then t else f
      if contactNumber = "" then acc else groupInsert acc contactNumber msg)
    []

/-- The error message Prisma raises when a message create hits the
`messages_twilioSid_key` unique index. -/
def uniqueSidMessage (sid : String) : String :=
  "Unique constraint failed: twilioSid " ++ sid

/-- Source (`bulk-sync.ts`, lines 225–259): the `Message` row created for a
record unknown in this conversation.  `channelType` is the group-level
channel type inferred once from the group's first record — the source does
not re-classify per record. -/
def createdRow (includeMedia : Bool) (resolveMedia : String → List String)
    (now : Nat) (ourNumbers : List String) (conversationId : String)
    (channelType : ChannelType) (id : Nat) (sid : String)
    (twilioMsg : TwilioMsg) : Message :=
  let status := recStatus twilioMsg
  let updatedAt := recUpdatedAt now twilioMsg
  { id := id
    twilioSid := some sid
    conversationId := conversationId
    direction := BulkSync.inferDirectionFromTwilioMessage twilioMsg ourNumbers
    channelType := channelType
    «from» := stripTransportPrefix twilioMsg.«from»
    «to» := stripTransportPrefix twilioMsg.«to»
    body := jsOr twilioMsg.body ""
    mediaUrls := recMedia includeMedia resolveMedia sid twilioMsg
    status := status
    errorCode := twilioMsg.errorCode.map toString
    errorMessage := jsOrUndefined twilioMsg.errorMessage
    sentAt := twilioMsg.dateSent
    deliveredAt :=
      if status = .DELIVERED ∨ status = .READ then some updatedAt else none
    readAt := if status = .READ then some updatedAt else none
    createdAt := recCreatedAt now twilioMsg
    updatedAt := updatedAt }

/-- Source (`bulk-sync.ts`, lines 196–289): the per-record loop for one
counterparty, threading the latest-message tracker
(`lastMessageBody`/`lastMessageAt`, initially `''` / `new Date(0)`).
`snapshot` is the `existingBySid` map (scoped to this conversation)
computed before the loop.  A create that races an existing row with the
same SID throws out of the loop (`some e`). -/
def processContactMessages (includeMedia : Bool)
    (resolveMedia : String → List String) (now : Nat)
    (ourNumbers : List String) (conversationId : String)
    (channelType : ChannelType) (snapshot : String → Option Message) :
    DB → BulkSyncResult → String → Nat → List TwilioMsg →
      DB × BulkSyncResult × String × Nat × Option String
  | db, result, lastBody, lastAt, [] => (db, result, lastBody, lastAt, none)
  | db, result, lastBody, lastAt, twilioMsg :: rest =>
    match goodSid twilioMsg with
    | none =>
      processContactMessages includeMedia resolveMedia now ourNumbers
        conversationId channelType snapshot db result lastBody lastAt rest
    | some sid =>
      let createdAt := recCreatedAt now twilioMsg
      let mediaUrls := recMedia includeMedia resolveMedia sid twilioMsg
      let lastAt1 := if createdAt > lastAt then createdAt else lastAt
      let lastBody1 :=
        if createdAt > lastAt then
          (let body := jsOr twilioMsg.body ""
           if body = "" then (if mediaUrls.length > 0 then "[Media]" else "") else body)
        else lastBody
      match snapshot sid with
      | none =>
        if sidTaken db sid then
          (db, result, lastBody1, lastAt1, some (uniqueSidMessage sid))
        else
          processContactMessages includeMedia resolveMedia now ourNumbers
            conversationId channelType snapshot
            { db with
                messages := db.messages ++
                  [createdRow includeMedia resolveMedia now ourNumbers
                    conversationId channelType db.nextId sid twilioMsg]
                statusEvents := db.statusEvents ++
                  [⟨db.nextId, recStatus twilioMsg, recUpdatedAt now twilioMsg⟩]
                nextId := db.nextId + 1 }
            { result with messagesInserted := result.messagesInserted + 1 }
            lastBody1 lastAt1 rest
      | some existing =>
        if existing.status ≠ recStatus twilioMsg then
          let db1 := dbUpdateMessage db existing.id (fun m =>
            { m with
                status := recStatus twilioMsg
                errorCode := twilioMsg.errorCode.map toString
                errorMessage := jsOrUndefined twilioMsg.errorMessage
                updatedAt := recUpdatedAt now twilioMsg })
          let db2 :=
            { db1 with statusEvents := db1.statusEvents ++
                [⟨existing.id, recStatus twilioMsg, recUpdatedAt now twilioMsg⟩] }
          processContactMessages includeMedia resolveMedia now ourNumbers
            conversationId channelType snapshot db2
            { result with messagesUpdated := result.messagesUpdated + 1 }
            lastBody1 lastAt1 rest
        else
          processContactMessages includeMedia resolveMedia now ourNumbers
            conversationId channelType snapshot db result lastBody1 lastAt1 rest

/-- Source (`bulk-sync.ts`, lines 134–164): `channel.findUnique` on
`(type, identifier)` and, when absent, `contact.create` with one nested
primary channel; yields the store, the owning contact's id
(`channel.contact` is only ever used for its id) and the running result. -/
def resolveChannelContact (db : DB) (result : BulkSyncResult)
    (channelType : ChannelType) (contactNumber : String) :
    DB × String × BulkSyncResult :=
  match db.channels.find?
      (fun c => c.type == channelType && c.identifier == contactNumber) with
  | none =>
    let contactId := toString db.nextId
    ({ db with
        contacts := db.contacts ++ [{ id := contactId, name := contactNumber }]
        channels := db.channels ++
          [{ contactId := contactId, type := channelType,
             identifier := contactNumber, isPrimary := true }]
        nextId := db.nextId + 1 },
      contactId,
      { result with contactsCreated := result.contactsCreated + 1 })
  | some channel => (db, channel.contactId, result)

/-- Source (`bulk-sync.ts`, lines 165–182): `conversation.findFirst` on
`(contactId, channelType)` and create when absent. -/
def resolveConversation (db1 : DB) (contactId : String)
    (channelType : ChannelType) (result1 : BulkSyncResult) :
    DB × String × BulkSyncResult :=
  match db1.conversations.find?
      (fun c => c.contactId == contactId && c.channelType == channelType) with
  | none =>
    let convId := toString db1.nextId
    ({ db1 with
        conversations := db1.conversations ++
          [{ id := convId, contactId := contactId, channelType := channelType,
             lastMessage := none, lastMessageAt := none }]
        nextId := db1.nextId + 1 },
      convId,
      { result1 with conversationsCreated := result1.conversationsCreated + 1 })
  | some conversation => (db1, conversation.id, result1)

/-- Source (`bulk-sync.ts`, lines 127–302): the body of the per-counterparty
`try` block — infer the channel type from the group's first record, find or
create the Channel+Contact and the Conversation, upsert the group's
records, then refresh the conversation summary.  The third component is the
error an inner throw would raise to the per-counterparty catch. -/
def processContact (includeMedia : Bool) (resolveMedia : String → List String)
    (now : Nat) (ourNumbers : List String) (db : DB) (result : BulkSyncResult)
    (contactNumber : String) (messages : List TwilioMsg) :
    DB × BulkSyncResult × Option String :=
  match messages with
  | [] => (db, result, none)
  | firstMsg :: _ =>
    let channelType := inferChannelTypeFromTwilioMessage firstMsg
    let step1 := resolveChannelContact db result channelType contactNumber
    let db1 := step1.1
    let contactId := step1.2.1
    let result1 := step1.2.2
    let step2 := resolveConversation db1 contactId channelType result1
    let db2 := step2.1
    let conversationId := step2.2.1
    let result2 := step2.2.2
    let snapshot := fun sid =>
      db2.messages.find? (fun m =>
        m.conversationId == conversationId && m.twilioSid == some sid)
    match processContactMessages includeMedia resolveMedia now ourNumbers
        conversationId channelType snapshot db2 result2 "" 0 messages with
    | (db3, result3, _, _, some e) => (db3, result3, some e)
    | (db3, result3, lastBody, lastAt, none) =>
      let db4 :=
        if lastAt > 0 then
          dbUpdateConversation db3 conversationId (fun c =>
            { c with
                lastMessage := if lastBody = "" then none else some lastBody
                lastMessageAt := some lastAt })
        else db3
      (db4, result3, none)

/-- Source (`bulk-sync.ts`, lines 126–308): the `for ... of
messagesByContact.entries()` loop with its per-counterparty `try`/`catch` —
an error from one counterparty is formatted, appended to `errors`, and the
loop continues with the next counterparty. -/
def bulkLoop (includeMedia : Bool) (resolveMedia : String → List String)
    (now : Nat) (ourNumbers : List String) :
    DB → BulkSyncResult → List (String × List TwilioMsg) → DB × BulkSyncResult
  | db, result, [] => (db, result)
  | db, result, (contactNumber, messages) :: rest =>
    match processContact includeMedia resolveMedia now ourNumbers
        db result contactNumber messages with
    | (db1, result1, none) =>
      bulkLoop includeMedia resolveMedia now ourNumbers db1 result1 rest
    | (db1, result1, some e) =>
      bulkLoop includeMedia resolveMedia now ourNumbers db1
        { result1 with errors := result1.errors ++
            ["Error processing contact " ++ contactNumber ++ ": " ++ e] }
        rest

/-- Source (`bulk-sync.ts`, lines 68–325), from the point the single
account-wide fetch has resolved or rejected (`fetchResult`; the
`limit`/`dateAfter` options only shape that fetch).  `ourNumbers` is the
set the source computes from configuration.  Per-counterparty errors are
caught, formatted and appended to `errors`; a fetch rejection propagates
(the source's outer catch re-throws it). -/
def bulkSyncFromTwilio (db : DB) (fetchResult : Except String (List TwilioMsg))
    (includeMedia : Bool) (resolveMedia : String → List String) (now : Nat)
    (ourNumbers : List String) :
    DB × Except String BulkSyncResult :=
  match fetchResult with
  | .error e => (db, .error e)
  | .ok allMessages =>
    let result0 : BulkSyncResult := ⟨0, 0, 0, 0, allMessages.length, []⟩
    let groups := messagesByContact ourNumbers allMessages
    let final := bulkLoop includeMedia resolveMedia now ourNumbers db result0 groups
    (final.1, .ok final.2)

end BulkSync

/-! ### Concrete scenario data

Small stores and raw records used to evaluate the pipelines at concrete
inputs. -/

/-- A media resolver that returns no URLs (e.g. every record has
`numMedia = 0`, or every media fetch failed and was downgraded). -/
def emptyResolver : String → List String :=
  fun _ => []

/-- A store holding one contact with one SMS channel and one conversation,
and no messages. -/
def exDb : DB :=
  ⟨[⟨"c1", "Alice"⟩], [⟨"c1", .SMS, "+15550002", true⟩],
    [⟨"conv1", "c1", .SMS, none, none⟩], [], [], 10⟩

/-- An outbound record, SID `SM1`, status `sent`, created at 100. -/
def exRecSent : TwilioMsg :=
  ⟨some "SM1", some "+15550001", some "+15550002", some "hello", some "sent",
    some "outbound-api", some 0, some 100, some 110, some 105, none, none⟩

/-- The same message `SM1` as reported by the other directional query, now
with status `delivered`. -/
def exRecDelivered : TwilioMsg :=
  ⟨some "SM1", some "+15550001", some "+15550002", some "hello", some "delivered",
    some "outbound-api", some 0, some 100, some 110, some 105, none, none⟩

/-- An inbound record, SID `SM2`, created at 200. -/
def exRecInbound : TwilioMsg :=
  ⟨some "SM2", some "+15550002", some "+15550001", some "hi back", some "received",
    some "inbound", some 0, some 200, some 210, none, none, none⟩

/-- A record with no SID, created at 150. -/
def exRecNoSid : TwilioMsg :=
  ⟨none, some "+15550001", some "+15550002", some "draft", some "sent",
    some "outbound-api", some 0, some 150, none, none, none, none⟩

/-- SID `B`, created at 100 (same timestamp as `exRecA`). -/
def exRecB : TwilioMsg :=
  ⟨some "B", some "+15550001", some "+15550002", some "b", some "sent",
    some "outbound-api", some 0, some 100, none, none, none, none⟩

/-- SID `A`, created at 100 (same timestamp as `exRecB`). -/
def exRecA : TwilioMsg :=
  ⟨some "A", some "+15550002", some "+15550001", some "a", some "received",
    some "inbound", some 0, some 100, none, none, none, none⟩

/-- A record whose direction hint is `outbound-api` but whose from-address
belongs to nobody's `ownAddresses` set. -/
def exRecForeign : TwilioMsg :=
  ⟨some "SM7", some "+15550009", some "+15550002", some "x", some "sent",
    some "outbound-api", some 0, some 100, none, none, none, none⟩

/-- A stored Message row for `SM1` in the DELIVERED state
(`deliveredAt = 400`). -/
def exDelRow : Message :=
  ⟨0, some "SM1", "conv1", .OUTBOUND, .SMS, "+15550001", "+15550002", "hello",
    [], .DELIVERED, none, none, some 105, some 400, none, 100, 110⟩

/-- `exDb` with message `SM1` already stored as DELIVERED. -/
def exDbDelivered : DB :=
  { exDb with messages := [exDelRow] }

/-- The upsert-loop context of a sync of `conv1` with media enabled. -/
def exCtx : HistorySync.SyncContext :=
  ⟨"conv1", true, emptyResolver, 999⟩

/-- A store in which SID `SM9` is already present in another conversation
(`convOther`), so a create of `SM9` elsewhere hits the unique index. -/
def exDbOther : DB :=
  { exDb with
      messages := [⟨0, some "SM9", "convOther", .OUTBOUND, .SMS, "+15550001",
        "+15550002", "x", [], .SENT, none, none, none, none, none, 50, 50⟩] }

/-- An outbound record carrying the already-taken SID `SM9`. -/
def exRecTaken : TwilioMsg :=
  ⟨some "SM9", some "+15550001", some "+15550002", some "x", some "sent",
    some "outbound-api", some 0, some 100, some 110, none, none, none⟩

/-- A media-only inbound record: SID `SM3`, no body, one media item,
created at 300. -/
def exRecMedia : TwilioMsg :=
  ⟨some "SM3", some "+15550002", some "+15550001", none, some "received",
    some "inbound", some 1, some 300, some 310, none, none, none⟩

/-- The first run of `syncConversationFromTwilio` on `exDb` over
`SM1`/`SM2`. -/
def exRun1 : DB × Except SyncError HistorySync.SyncConversationFromTwilioResult :=
  HistorySync.syncConversationFromTwilio exDb "conv1" [exRecSent]
    [exRecInbound] 200 true emptyResolver 999

/-- The bulk-sync step on `exDbOther` for the counterparty `+15550002`
whose record list carries the taken SID `SM9`. -/
def exBulkStep : DB × BulkSync.BulkSyncResult × Option String :=
  BulkSync.processContact true emptyResolver 999 ["+15550001"] exDbOther
    ⟨0, 0, 0, 0, 2, []⟩ "+15550002" [exRecTaken, exRecInbound]

/-! ### Lemmas about the SID map and the dedup fold -/

theorem goodSid_eq_some {m : TwilioMsg} {s : String} :
    goodSid m = some s ↔ m.sid = some s ∧ s ≠ "" := by
  cases hm : m.sid with
  | none =>
    simp only [goodSid, hm]
    constructor
    · intro h; exact Option.noConfusion h
    · rintro ⟨h, -⟩; exact Option.noConfusion h
  | some t =>
    simp only [goodSid, hm]
    by_cases ht : t = ""
    · rw [if_pos ht]
      constructor
      · intro h; exact Option.noConfusion h
      · rintro ⟨h, hs⟩
        obtain rfl := Option.some.inj h
        exact absurd ht hs
    · rw [if_neg ht]
      constructor
      · intro h
        obtain rfl := Option.some.inj h
        exact ⟨rfl, ht⟩
      · rintro ⟨h, -⟩
        obtain rfl := Option.some.inj h
        rfl

theorem mapLookup_mapSet (m : List (String × TwilioMsg)) (k : String)
    (v : TwilioMsg) (k2 : String) :
    mapLookup (mapSet m k v) k2 = if k2 = k then some v else mapLookup m k2 := by
  induction m with
  | nil =>
    by_cases h : k2 = k
    · simp [mapSet, mapLookup, h]
    · simp [mapSet, mapLookup, h, Ne.symm h]
  | cons hd tl ih =>
    obtain ⟨k1, v1⟩ := hd
    by_cases h1 : k1 = k
    · subst h1
      by_cases h2 : k2 = k1
      · simp [mapSet, mapLookup, h2]
      · simp [mapSet, mapLookup, h2, Ne.symm h2]
    · by_cases h2 : k2 = k1
      · subst h2
        simp [mapSet, h1, mapLookup]
      · simp [mapSet, h1, mapLookup, h2, Ne.symm h2, ih]

theorem mem_keys_mapSet {m : List (String × TwilioMsg)} {k : String}
    {v : TwilioMsg} {a : String} :
    a ∈ (mapSet m k v).map Prod.fst ↔ a = k ∨ a ∈ m.map Prod.fst := by
  induction m with
  | nil => simp [mapSet]
  | cons hd tl ih =>
    obtain ⟨k1, v1⟩ := hd
    by_cases h1 : k1 = k
    · subst h1; simp [mapSet]
    · simp [mapSet, h1, ih]
      tauto

theorem keys_mapSet_nodup {m : List (String × TwilioMsg)} {k : String}
    {v : TwilioMsg} (h : (m.map Prod.fst).Nodup) :
    ((mapSet m k v).map Prod.fst).Nodup := by
  induction m with
  | nil => simp [mapSet]
  | cons hd tl ih =>
    obtain ⟨k1, v1⟩ := hd
    simp only [List.map_cons, List.nodup_cons] at h
    by_cases h1 : k1 = k
    · subst h1
      simpa [mapSet] using h
    · simp only [mapSet, h1, if_false, List.map_cons, List.nodup_cons]
      refine ⟨fun hmem => ?_, ih h.2⟩
      rcases mem_keys_mapSet.mp hmem with rfl | hmem2
      · exact h1 rfl
      · exact h.1 hmem2

theorem mem_mapSet {m : List (String × TwilioMsg)} {k : String} {v : TwilioMsg}
    {p : String × TwilioMsg} (hp : p ∈ mapSet m k v) : p ∈ m ∨ p = (k, v) := by
  induction m with
  | nil => simpa [mapSet] using hp
  | cons hd tl ih =>
    obtain ⟨k1, v1⟩ := hd
    by_cases h1 : k1 = k
    · subst h1
      rcases (by simpa [mapSet] using hp : p = (k1, v) ∨ p ∈ tl) with rfl | h
      · exact Or.inr rfl
      · exact Or.inl (List.mem_cons_of_mem _ h)
    · rcases (by simpa [mapSet, h1] using hp : p = (k1, v1) ∨ p ∈ mapSet tl k v) with rfl | h
      · exact Or.inl (List.mem_cons_self _ _)
      · rcases ih h with h2 | h2
        · exact Or.inl (List.mem_cons_of_mem _ h2)
        · exact Or.inr h2

theorem goodSid_eq_none {m : TwilioMsg} :
    goodSid m = none ↔ m.sid = none ∨ m.sid = some "" := by
  cases hm : m.sid with
  | none => simp [goodSid, hm]
  | some t =>
    simp only [goodSid, hm]
    by_cases ht : t = ""
    · subst ht; simp
    · simp [ht]

theorem dedupeStep_keys_nodup {acc : List (String × TwilioMsg)} {msg : TwilioMsg}
    (h : (acc.map Prod.fst).Nodup) : ((dedupeStep acc msg).map Prod.fst).Nodup := by
  unfold dedupeStep
  cases goodSid msg with
  | none => exact h
  | some s => exact keys_mapSet_nodup h

theorem dedupeBySid_keys_nodup (l : List TwilioMsg) :
    ((dedupeBySid l).map Prod.fst).Nodup := by
  suffices h : ∀ acc : List (String × TwilioMsg), (acc.map Prod.fst).Nodup →
      ((l.foldl dedupeStep acc).map Prod.fst).Nodup from h [] (by simp)
  induction l with
  | nil => intro acc h; simpa using h
  | cons hd tl ih => intro acc h; exact ih _ (dedupeStep_keys_nodup h)

theorem dedupe_fold_mem (R : TwilioMsg → Prop) (l : List TwilioMsg) :
    ∀ acc : List (String × TwilioMsg),
    (∀ q ∈ acc, goodSid q.2 = some q.1 ∧ R q.2) →
    (∀ m ∈ l, R m) →
    ∀ q ∈ l.foldl dedupeStep acc, goodSid q.2 = some q.1 ∧ R q.2 := by
  induction l with
  | nil => intro acc hacc _ q hq; exact hacc q hq
  | cons hd tl ih =>
    intro acc hacc hl q hq
    refine ih _ ?_ (fun m hm => hl m (List.mem_cons_of_mem _ hm)) q hq
    intro q2 hq2
    unfold dedupeStep at hq2
    cases hgs : goodSid hd with
    | none => rw [hgs] at hq2; exact hacc q2 hq2
    | some s =>
      rw [hgs] at hq2
      rcases mem_mapSet hq2 with h | rfl
      · exact hacc q2 h
      · exact ⟨hgs, hl hd (List.mem_cons_self _ _)⟩

theorem dedupeBySid_mem {l : List TwilioMsg} {p : String × TwilioMsg}
    (hp : p ∈ dedupeBySid l) : goodSid p.2 = some p.1 ∧ p.2 ∈ l :=
  dedupe_fold_mem (· ∈ l) l [] (by simp) (fun _ hm => hm) p hp

theorem dedupeBySid_concat (l : List TwilioMsg) (x : TwilioMsg) :
    dedupeBySid (l ++ [x]) = dedupeStep (dedupeBySid l) x := by
  unfold dedupeBySid
  rw [List.foldl_append]
  rfl

theorem mapLookup_dedupeBySid (l : List TwilioMsg) (s : String) (hs : s ≠ "") :
    mapLookup (dedupeBySid l) s =
      (l.filter (fun m => m.sid == some s)).getLast? := by
  induction l using List.reverseRecOn with
  | nil => rfl
  | append_singleton l x ih =>
    rw [dedupeBySid_concat, List.filter_append]
    unfold dedupeStep
    cases hgs : goodSid x with
    | none =>
      have hx : (x.sid == some s) = false := by
        rcases goodSid_eq_none.mp hgs with h | h <;> simp [h]
        intro h2
        exact hs h2.symm
      simp only [List.filter_cons, hx, Bool.false_eq_true, if_false, List.filter_nil,
        List.append_nil]
      exact ih
    | some s2 =>
      rw [mapLookup_mapSet]
      rcases goodSid_eq_some.mp hgs with ⟨hsid, -⟩
      by_cases h : s = s2
      · subst h
        have hx : (x.sid == some s) = true := by simp [hsid]
        simp only [hx, if_pos rfl, List.filter_cons, if_true, List.filter_nil]
        exact (List.getLast?_concat _).symm
      · have hx : (x.sid == some s) = false := by
          simp [hsid]
          exact fun h2 => h h2.symm
        simp only [hx, if_neg h, Bool.false_eq_true, if_false, List.filter_cons,
          List.filter_nil, List.append_nil]
        exact ih

theorem mapLookup_isSome_iff {m : List (String × TwilioMsg)} {s : String} :
    (mapLookup m s).isSome ↔ s ∈ m.map Prod.fst := by
  induction m with
  | nil => simp [mapLookup]
  | cons hd tl ih =>
    obtain ⟨k1, v1⟩ := hd
    by_cases h : k1 = s
    · subst h; simp [mapLookup]
    · simp [mapLookup, h, ih, Ne.symm h]

theorem mapLookup_mem_values {m : List (String × TwilioMsg)} {s : String}
    {v : TwilioMsg} (h : mapLookup m s = some v) : v ∈ m.map Prod.snd := by
  induction m with
  | nil => simp [mapLookup] at h
  | cons hd tl ih =>
    obtain ⟨k1, v1⟩ := hd
    by_cases hk : k1 = s
    · subst hk
      simp only [mapLookup, if_pos rfl] at h
      obtain rfl := Option.some.inj h
      simp
    · simp only [mapLookup, if_neg hk] at h
      simp [ih h]

/-! ### Lemmas about the stable time sort and the merged stream -/

theorem insertByTime_perm (x : TwilioMsg) (l : List TwilioMsg) :
    (insertByTime x l).Perm (x :: l) := by
  induction l with
  | nil => exact List.Perm.refl _
  | cons y ys ih =>
    unfold insertByTime
    by_cases h : timeOf y ≤ timeOf x
    · rw [if_pos h]
      exact (ih.cons y).trans (List.Perm.swap x y ys)
    · rw [if_neg h]

theorem mem_insertByTime {a x : TwilioMsg} {l : List TwilioMsg} :
    a ∈ insertByTime x l ↔ a = x ∨ a ∈ l := by
  rw [(insertByTime_perm x l).mem_iff]
  exact List.mem_cons

theorem sorted_insertByTime {x : TwilioMsg} {l : List TwilioMsg}
    (h : List.Sorted (fun a b => timeOf a ≤ timeOf b) l) :
    List.Sorted (fun a b => timeOf a ≤ timeOf b) (insertByTime x l) := by
  induction l with
  | nil => simp [insertByTime]
  | cons y ys ih =>
    rw [List.sorted_cons] at h
    unfold insertByTime
    by_cases hc : timeOf y ≤ timeOf x
    · rw [if_pos hc, List.sorted_cons]
      refine ⟨?_, ih h.2⟩
      intro b hb
      rcases mem_insertByTime.mp hb with rfl | hb2
      · exact hc
      · exact h.1 b hb2
    · rw [if_neg hc, List.sorted_cons]
      refine ⟨?_, List.sorted_cons.mpr h⟩
      intro b hb
      rcases List.mem_cons.mp hb with rfl | hb2
      · exact Nat.le_of_not_le hc
      · exact le_trans (Nat.le_of_not_le hc) (h.1 b hb2)

theorem sortFold_perm (l : List TwilioMsg) :
    ∀ acc : List TwilioMsg,
      (List.foldl (fun a x => insertByTime x a) acc l).Perm (acc ++ l) := by
  induction l with
  | nil => intro acc; simp
  | cons y ys ih =>
    intro acc
    have h1 := ih (insertByTime y acc)
    have h2 : ((insertByTime y acc) ++ ys).Perm ((y :: acc) ++ ys) :=
      (insertByTime_perm y acc).append_right ys
    have h3 : ((y :: acc) ++ ys).Perm (acc ++ y :: ys) := by
      simpa using
        (show (acc ++ y :: ys).Perm (y :: (acc ++ ys)) from List.perm_middle).symm
    exact (h1.trans h2).trans h3

theorem sortByDateCreated_perm (l : List TwilioMsg) :
    (sortByDateCreated l).Perm l := by
  simpa using sortFold_perm l []

theorem sortFold_sorted (l : List TwilioMsg) :
    ∀ acc : List TwilioMsg,
      List.Sorted (fun a b => timeOf a ≤ timeOf b) acc →
      List.Sorted (fun a b => timeOf a ≤ timeOf b)
        (List.foldl (fun a x => insertByTime x a) acc l) := by
  induction l with
  | nil => intro acc h; exact h
  | cons y ys ih => intro acc h; exact ih _ (sorted_insertByTime h)

theorem sortByDateCreated_sorted (l : List TwilioMsg) :
    List.Sorted (fun a b => timeOf a ≤ timeOf b) (sortByDateCreated l) :=
  sortFold_sorted l [] (by simp)

theorem mergeTwilioLists_perm (outbound inbound : List TwilioMsg) :
    (mergeTwilioLists outbound inbound).Perm
      ((dedupeBySid (outbound ++ inbound)).map Prod.snd) :=
  sortByDateCreated_perm _

theorem mem_mergeTwilioLists {outbound inbound : List TwilioMsg} {r : TwilioMsg} :
    r ∈ mergeTwilioLists outbound inbound ↔
      r ∈ (dedupeBySid (outbound ++ inbound)).map Prod.snd :=
  (mergeTwilioLists_perm outbound inbound).mem_iff

theorem mergeTwilioLists_goodSid {outbound inbound : List TwilioMsg}
    {r : TwilioMsg} (hr : r ∈ mergeTwilioLists outbound inbound) :
    ∃ s, goodSid r = some s := by
  rcases List.mem_map.mp (mem_mergeTwilioLists.mp hr) with ⟨p, hp, rfl⟩
  exact ⟨p.1, (dedupeBySid_mem hp).1⟩

theorem values_filterMap_goodSid {m : List (String × TwilioMsg)}
    (h : ∀ p ∈ m, goodSid p.2 = some p.1) :
    (m.map Prod.snd).filterMap goodSid = m.map Prod.fst := by
  induction m with
  | nil => rfl
  | cons hd tl ih =>
    simp only [List.map_cons, List.filterMap_cons, h hd (List.mem_cons_self _ _)]
    rw [ih (fun p hp => h p (List.mem_cons_of_mem _ hp))]

theorem sidsOf_merge_perm (outbound inbound : List TwilioMsg) :
    (sidsOf (mergeTwilioLists outbound inbound)).Perm
      ((dedupeBySid (outbound ++ inbound)).map Prod.fst) := by
  have h1 := (mergeTwilioLists_perm outbound inbound).filterMap goodSid
  rw [values_filterMap_goodSid (fun p hp => (dedupeBySid_mem hp).1)] at h1
  exact h1

theorem sidsOf_merge_nodup (outbound inbound : List TwilioMsg) :
    (sidsOf (mergeTwilioLists outbound inbound)).Nodup :=
  (sidsOf_merge_perm outbound inbound).nodup_iff.mpr
    (dedupeBySid_keys_nodup _)

theorem sidsOf_merge_length (outbound inbound : List TwilioMsg) :
    (sidsOf (mergeTwilioLists outbound inbound)).length =
      (dedupeBySid (outbound ++ inbound)).length := by
  rw [(sidsOf_merge_perm outbound inbound).length_eq, List.length_map]

theorem mergeTwilioLists_length (outbound inbound : List TwilioMsg) :
    (mergeTwilioLists outbound inbound).length =
      (dedupeBySid (outbound ++ inbound)).length := by
  rw [(mergeTwilioLists_perm outbound inbound).length_eq, List.length_map]

/-! ### Claims C4, C5, C9 — the merge and the classifiers -/

/-- Claim C4, counterexample: merging one SID-less record with records
`B`, `A` of equal timestamps yields `[B, A]` — the SID-less record is
dropped (not "its own unique entry"), and the tie is left in dedup order
rather than being tiebroken by SID (which would put `A` first). -/
theorem claim_C4_counterexample :
    mergeTwilioLists [exRecNoSid, exRecB] [exRecA] = [exRecB, exRecA] ∧
    exRecNoSid ∉ mergeTwilioLists [exRecNoSid, exRecB] [exRecA] := by
  decide

/-- Claim C4 (amended): `merge` produces the union of the input records
keyed by provider SID in which every record *without* a SID is dropped,
sorted by creation timestamp ascending; equal timestamps keep the dedup
map's insertion order — there is no SID tiebreak. -/
theorem claim_C4_theorem (outbound inbound : List TwilioMsg) :
    List.Sorted (fun a b => timeOf a ≤ timeOf b) (mergeTwilioLists outbound inbound) ∧
    (∀ r ∈ mergeTwilioLists outbound inbound, ∃ s, r.sid = some s ∧ s ≠ "") ∧
    (sidsOf (mergeTwilioLists outbound inbound)).Nodup ∧
    ∀ s : String, s ≠ "" →
      ((∃ r ∈ mergeTwilioLists outbound inbound, r.sid = some s) ↔
        ∃ r ∈ outbound ++ inbound, r.sid = some s) := by
  refine ⟨sortByDateCreated_sorted _, ?_, sidsOf_merge_nodup _ _, ?_⟩
  · intro r hr
    rcases mergeTwilioLists_goodSid hr with ⟨s, hs⟩
    exact ⟨s, goodSid_eq_some.mp hs⟩
  · intro s hs
    constructor
    · rintro ⟨r, hr, hsid⟩
      rcases List.mem_map.mp (mem_mergeTwilioLists.mp hr) with ⟨p, hp, rfl⟩
      exact ⟨p.2, (dedupeBySid_mem hp).2, hsid⟩
    · rintro ⟨r0, hr0, hsid0⟩
      have hfmem : r0 ∈ (outbound ++ inbound).filter (fun m => m.sid == some s) :=
        List.mem_filter.mpr ⟨hr0, by simp [hsid0]⟩
      have hne := List.ne_nil_of_mem hfmem
      rcases Option.isSome_iff_exists.mp (List.getLast?_isSome.mpr hne) with ⟨v, hv⟩
      have hlk := mapLookup_dedupeBySid (outbound ++ inbound) s hs
      rw [hv] at hlk
      have hvmerge : v ∈ mergeTwilioLists outbound inbound :=
        mem_mergeTwilioLists.mpr (mapLookup_mem_values hlk)
      have hvfilter : v ∈ (outbound ++ inbound).filter (fun m => m.sid == some s) :=
        List.mem_of_mem_getLast? hv
      have hvsid : v.sid = some s := by
        simpa using (List.mem_filter.mp hvfilter).2
      exact ⟨v, hvmerge, hvsid⟩

/-- Claim C4, witness: the membership clause of the amended claim applied
to the two-record scenario. -/
theorem claim_C4_witness :
    ∃ r ∈ mergeTwilioLists [exRecB] [exRecA], r.sid = some "B" :=
  ((claim_C4_theorem [exRecB] [exRecA]).2.2.2 "B" (by decide)).mpr
    ⟨exRecB, by decide, by decide⟩

/-- Claim C5, counterexample: the single-conversation sync's
`inferDirectionFromTwilioMessage` classifies a record with direction hint
`outbound-api` as OUTBOUND even though its from-address is in nobody's
`ownAddresses` set — so "OUTBOUND exactly when the normalized from-address
is a member of ownAddresses" is false for that engine entry point. -/
theorem claim_C5_counterexample :
    ¬ (HistorySync.inferDirectionFromTwilioMessage exRecForeign = .OUTBOUND ↔
        stripTransportPrefix exRecForeign.«from» ∈ ([] : List String)) := by
  decide

/-- Claim C5 (amended): only the bulk sync classifies by membership of the
stripped from-address in the account's own numbers; the single-conversation
sync instead returns INBOUND exactly when the record's lowercased direction
hint starts with `inbound` (OUTBOUND otherwise).  Both depend only on the
record (and the fixed own-number set), hence are independent of which
directional query produced the record. -/
theorem claim_C5_theorem (message : TwilioMsg) (ourNumbers : List String) :
    (BulkSync.inferDirectionFromTwilioMessage message ourNumbers = .OUTBOUND ↔
      stripTransportPrefix message.«from» ∈ ourNumbers) ∧
    (HistorySync.inferDirectionFromTwilioMessage message = .INBOUND ↔
      strStartsWith (strLower (jsOr message.direction "")) "inbound" = true) := by
  constructor
  · unfold BulkSync.inferDirectionFromTwilioMessage
    by_cases h : stripTransportPrefix message.«from» ∈ ourNumbers
    · simp [h]
    · simp [h]
  · unfold HistorySync.inferDirectionFromTwilioMessage
    by_cases h : strStartsWith (strLower (jsOr message.direction "")) "inbound" = true
    · simp [h]
    · simp [h]

/-- Claim C9: for a SID appearing in both directional query results, the
dedup map keeps the *last inbound* occurrence (the lists are concatenated
outbound-first, so the later inbound insertion overwrites), and that
record is the one the sorted merge output carries into the upsert loop. -/
theorem claim_C9_theorem (outbound inbound : List TwilioMsg) (s : String)
    (hs : s ≠ "") (hin : ∃ r ∈ inbound, r.sid = some s) :
    mapLookup (dedupeBySid (outbound ++ inbound)) s =
      (inbound.filter (fun m => m.sid == some s)).getLast? ∧
    ∀ r, (inbound.filter (fun m => m.sid == some s)).getLast? = some r →
      r ∈ mergeTwilioLists outbound inbound := by
  rcases hin with ⟨r0, hr0, hsid0⟩
  have hfmem : r0 ∈ inbound.filter (fun m => m.sid == some s) :=
    List.mem_filter.mpr ⟨hr0, by simp [hsid0]⟩
  have hne := List.ne_nil_of_mem hfmem
  have hmain : mapLookup (dedupeBySid (outbound ++ inbound)) s =
      (inbound.filter (fun m => m.sid == some s)).getLast? := by
    rw [mapLookup_dedupeBySid _ s hs, List.filter_append,
      List.getLast?_append_of_ne_nil _ hne]
  refine ⟨hmain, ?_⟩
  intro r hr
  exact mem_mergeTwilioLists.mpr (mapLookup_mem_values (hmain.trans hr))

/-- Claim C9, witness: SID `SM1` appears in both query results; the map
keeps the inbound-list occurrence. -/
theorem claim_C9_witness :
    mapLookup (dedupeBySid ([exRecSent] ++ [exRecDelivered])) "SM1" =
      (([exRecDelivered]).filter (fun m => m.sid == some "SM1")).getLast? ∧
    ∀ r, (([exRecDelivered]).filter (fun m => m.sid == some "SM1")).getLast? = some r →
      r ∈ mergeTwilioLists [exRecSent] [exRecDelivered] :=
  claim_C9_theorem [exRecSent] [exRecDelivered] "SM1" (by decide)
    ⟨exRecDelivered, by decide, by decide⟩

/-! ### Case equations for the single-conversation upsert step -/

namespace HistorySync

theorem processRecord_noSid (ctx : SyncContext) (snap : String → Option Message)
    (db : DB) (counts : SyncCounts) {m : TwilioMsg} (h : goodSid m = none) :
    processRecord ctx snap db counts m = (db, counts, none) := by
  unfold processRecord
  rw [h]

theorem processRecord_conflict (ctx : SyncContext) (snap : String → Option Message)
    (db : DB) (counts : SyncCounts) {m : TwilioMsg} {s : String}
    (hgs : goodSid m = some s) (hsnap : snap s = none)
    (htaken : sidTaken db s = true) :
    processRecord ctx snap db counts m =
      (db, counts, some (.uniqueSidViolation s)) := by
  simp only [processRecord, hgs, hsnap]
  rw [if_pos htaken]

theorem processRecord_create (ctx : SyncContext) (snap : String → Option Message)
    (db : DB) (counts : SyncCounts) {m : TwilioMsg} {s : String}
    (hgs : goodSid m = some s) (hsnap : snap s = none)
    (hfree : sidTaken db s = false) :
    processRecord ctx snap db counts m =
      ({ db with
          messages := db.messages ++ [createdRow ctx db.nextId s m]
          statusEvents := db.statusEvents ++
            [⟨db.nextId, recStatus m, recUpdatedAt ctx.now m⟩]
          nextId := db.nextId + 1 },
        { counts with inserted := counts.inserted + 1 }, none) := by
  simp only [processRecord, hgs, hsnap]
  rw [if_neg (by simp [hfree])]

theorem processRecord_skip (ctx : SyncContext) (snap : String → Option Message)
    (db : DB) (counts : SyncCounts) {m : TwilioMsg} {s : String}
    {current : Message}
    (hgs : goodSid m = some s) (hsnap : snap s = some current)
    (hskip : skipCond ctx.includeMedia ctx.resolveMedia current s m) :
    processRecord ctx snap db counts m = (db, counts, none) := by
  obtain ⟨h1, h2⟩ := hskip
  simp only [processRecord, hgs, hsnap]
  split
  · rfl
  · rename_i hcond
    exfalso
    apply hcond
    have hs1 : (decide (current.status ≠ recStatus m)) = false := by
      simp [h1]
    have hs2 : (ctx.includeMedia && current.mediaUrls.length == 0 &&
        decide ((recMedia ctx.includeMedia ctx.resolveMedia s m).length > 0)) = false := by
      by_cases ha : ctx.includeMedia = true
      · by_cases hb : current.mediaUrls.length = 0
        · by_cases hc : (recMedia ctx.includeMedia ctx.resolveMedia s m).length > 0
          · exact absurd ⟨ha, hb, hc⟩ h2
          · simp [hc]
        · simp [hb]
      · simp [Bool.eq_false_iff.mpr ha]
    rw [hs1, hs2]
    rfl

theorem processRecord_write (ctx : SyncContext) (snap : String → Option Message)
    (db : DB) (counts : SyncCounts) {m : TwilioMsg} {s : String}
    {current : Message}
    (hgs : goodSid m = some s) (hsnap : snap s = some current)
    (hwrite : ¬ skipCond ctx.includeMedia ctx.resolveMedia current s m) :
    processRecord ctx snap db counts m =
      (((fun db1 =>
          if (current.status ≠ recStatus m : Bool) then
            { db1 with statusEvents := db1.statusEvents ++
                [⟨current.id, recStatus m, recUpdatedAt ctx.now m⟩] }
          else db1)
        (dbUpdateMessage db current.id (updatePatch ctx current s m))),
        { counts with updated := counts.updated + 1 }, none) := by
  simp only [processRecord, hgs, hsnap]
  split
  · rename_i hcond
    exfalso
    apply hwrite
    rw [Bool.and_eq_true, Bool.not_eq_true', Bool.not_eq_true'] at hcond
    obtain ⟨hc1, hc2⟩ := hcond
    constructor
    · have := of_decide_eq_false hc1
      exact not_not.mp (by simpa using this)
    · intro hh
      obtain ⟨ha, hb, hc⟩ := hh
      rw [ha, hb] at hc2
      rw [ha] at hc
      have hnil : recMedia true ctx.resolveMedia s m = [] := by simpa using hc2
      rw [hnil] at hc
      simp at hc
  · rfl

theorem updatePatch_id (ctx : SyncContext) (current : Message) (s : String)
    (msg : TwilioMsg) (m : Message) : (updatePatch ctx current s msg m).id = m.id :=
  rfl

theorem updatePatch_twilioSid (ctx : SyncContext) (current : Message) (s : String)
    (msg : TwilioMsg) (m : Message) :
    (updatePatch ctx current s msg m).twilioSid = m.twilioSid :=
  rfl

theorem updatePatch_status (ctx : SyncContext) (current : Message) (s : String)
    (msg : TwilioMsg) (m : Message) :
    (updatePatch ctx current s msg m).status = recStatus msg :=
  rfl

/-- Once a row's `deliveredAt` is set, the update patch (conditions read
from the same row) keeps it unchanged. -/
theorem updatePatch_deliveredAt_self (ctx : SyncContext) (s : String)
    (msg : TwilioMsg) (m : Message) {d : Nat} (hm : m.deliveredAt = some d) :
    (updatePatch ctx m s msg m).deliveredAt = some d := by
  simp only [updatePatch]
  have h1 : m.deliveredAt.isNone = false := by rw [hm]; rfl
  rw [h1]
  simp only [Bool.and_false, Bool.false_eq_true, if_false]
  by_cases h2 : (recStatus msg == MessageStatus.READ && m.readAt.isNone) = true
  · rw [if_pos h2, hm]
    rfl
  · rw [if_neg h2]
    exact hm

theorem createdRow_twilioSid (ctx : SyncContext) (i : Nat) (s : String)
    (m : TwilioMsg) : (createdRow ctx i s m).twilioSid = some s :=
  rfl

theorem createdRow_id (ctx : SyncContext) (i : Nat) (s : String)
    (m : TwilioMsg) : (createdRow ctx i s m).id = i :=
  rfl

end HistorySync

/-! ### Store-level lemmas -/

theorem msgSids_dbUpdateMessage (db : DB) (id : Nat) (patch : Message → Message)
    (h : ∀ m, (patch m).twilioSid = m.twilioSid) :
    msgSids (dbUpdateMessage db id patch) = msgSids db := by
  unfold msgSids dbUpdateMessage
  simp only
  rw [List.filterMap_map]
  apply List.filterMap_congr
  intro m _
  by_cases hm : m.id = id
  · simp [Function.comp, hm, h]
  · simp [Function.comp, hm]

theorem msgIds_dbUpdateMessage (db : DB) (id : Nat) (patch : Message → Message)
    (h : ∀ m, (patch m).id = m.id) :
    msgIds (dbUpdateMessage db id patch) = msgIds db := by
  unfold msgIds dbUpdateMessage
  simp only [List.map_map]
  apply List.map_congr_left
  intro m _
  by_cases hm : m.id = id
  · simp [Function.comp, hm, h]
  · simp [Function.comp, hm]

theorem nextId_dbUpdateMessage (db : DB) (id : Nat) (patch : Message → Message) :
    (dbUpdateMessage db id patch).nextId = db.nextId :=
  rfl

theorem messages_length_dbUpdateMessage (db : DB) (id : Nat)
    (patch : Message → Message) :
    (dbUpdateMessage db id patch).messages.length = db.messages.length := by
  unfold dbUpdateMessage
  simp

theorem dbFind_eq_none {db : DB} {s : String} :
    dbFind db s = none ↔ ∀ m ∈ db.messages, m.twilioSid ≠ some s := by
  unfold dbFind
  rw [List.find?_eq_none]
  constructor
  · intro h m hm
    have := h m hm
    simpa using this
  · intro h m hm
    simpa using h m hm

theorem sidTaken_eq_false {db : DB} {s : String} :
    sidTaken db s = false ↔ ∀ m ∈ db.messages, m.twilioSid ≠ some s := by
  unfold sidTaken
  rw [List.any_eq_false]
  constructor
  · intro h m hm
    have := h m hm
    simpa using this
  · intro h m hm
    simpa using h m hm

theorem dbFind_none_sidTaken_false {db : DB} {s : String}
    (h : dbFind db s = none) : sidTaken db s = false :=
  sidTaken_eq_false.mpr (dbFind_eq_none.mp h)

theorem dbFind_mem {db : DB} {s : String} {row : Message}
    (h : dbFind db s = some row) : row ∈ db.messages ∧ row.twilioSid = some s := by
  unfold dbFind at h
  refine ⟨List.mem_of_find?_eq_some h, ?_⟩
  have := List.find?_some h
  simpa using this

theorem dbFind_append {db db2 : DB} (row : Message)
    (hmsgs : db2.messages = db.messages ++ [row]) (s : String) :
    dbFind db2 s =
      (dbFind db s).or (if row.twilioSid = some s then some row else none) := by
  unfold dbFind
  rw [hmsgs, List.find?_append]
  congr 1
  by_cases h : row.twilioSid = some s
  · simp [List.find?, h]
  · simp [List.find?, h]

theorem dbFind_dbUpdateMessage (db : DB) (id : Nat) (patch : Message → Message)
    (h : ∀ m, (patch m).twilioSid = m.twilioSid) (s : String) :
    dbFind (dbUpdateMessage db id patch) s =
      (dbFind db s).map (fun m => if m.id = id then patch m else m) := by
  unfold dbFind dbUpdateMessage
  simp only
  rw [List.find?_map]
  have hp : ((fun m : Message => decide (m.twilioSid = some s)) ∘
      (fun m => if m.id = id then patch m else m)) =
      (fun m : Message => decide (m.twilioSid = some s)) := by
    funext m
    by_cases hm : m.id = id
    · simp [Function.comp, hm, h]
    · simp [Function.comp, hm]
  rw [hp]

theorem mem_msgSids {db : DB} {s : String} :
    s ∈ msgSids db ↔ ∃ m ∈ db.messages, m.twilioSid = some s := by
  unfold msgSids
  rw [List.mem_filterMap]

theorem not_mem_msgSids_of_dbFind_none {db : DB} {s : String}
    (h : dbFind db s = none) : s ∉ msgSids db := by
  intro hmem
  rcases mem_msgSids.mp hmem with ⟨m, hm, hsid⟩
  exact dbFind_eq_none.mp h m hm hsid

theorem msgSids_append {db db2 : DB} {row : Message}
    (hm : db2.messages = db.messages ++ [row]) {s : String}
    (hrow : row.twilioSid = some s) : msgSids db2 = msgSids db ++ [s] := by
  unfold msgSids
  rw [hm, List.filterMap_append]
  simp [hrow]

theorem msgIds_append {db db2 : DB} {row : Message}
    (hm : db2.messages = db.messages ++ [row]) :
    msgIds db2 = msgIds db ++ [row.id] := by
  unfold msgIds
  rw [hm, List.map_append]
  rfl

/-- In a store with unique primary keys, a row is determined by its id. -/
theorem row_eq_of_id_eq {db : DB} (h : (msgIds db).Nodup) {a b : Message}
    (ha : a ∈ db.messages) (hb : b ∈ db.messages) (hid : a.id = b.id) : a = b :=
  List.inj_on_of_nodup_map h ha hb hid

theorem nextId_not_mem_msgIds {db : DB}
    (h : ∀ m ∈ db.messages, m.id < db.nextId) : db.nextId ∉ msgIds db := by
  intro hmem
  rcases List.mem_map.mp hmem with ⟨m, hm, hid⟩
  exact absurd (hid ▸ h m hm) (lt_irrefl _)

theorem dbFind_congr {db db2 : DB} (h : db2.messages = db.messages) (s : String) :
    dbFind db2 s = dbFind db s := by
  unfold dbFind
  rw [h]

namespace HistorySync

/-- Post-state of the create branch of the upsert step. -/
theorem create_post (ctx : SyncContext) {db db2 : DB} {s : String} {m : TwilioMsg}
    (hM : db2.messages = db.messages ++ [createdRow ctx db.nextId s m])
    (hN : db2.nextId = db.nextId + 1)
    (hwf : dbWf db) (hfind : dbFind db s = none) :
    dbWf db2 ∧
    (∀ t, s ≠ t → dbFind db2 t = dbFind db t) ∧
    dbFind db2 s = some (createdRow ctx db.nextId s m) ∧
    msgSids db2 = msgSids db ++ [s] ∧
    db2.messages.length = db.messages.length + 1 ∧
    (∀ (d : Nat) (row : Message), row ∈ db.messages → row.deliveredAt = some d →
      ∀ row2 ∈ db2.messages, row2.id = row.id → row2.deliveredAt = some d) := by
  obtain ⟨hwf1, hwf2, hwf3⟩ := hwf
  have hsids := msgSids_append hM (createdRow_twilioSid ctx db.nextId s m)
  have hids := msgIds_append hM
  refine ⟨⟨?_, ?_, ?_⟩, ?_, ?_, hsids, ?_, ?_⟩
  · rw [hsids, List.nodup_append]
    refine ⟨hwf1, List.nodup_singleton s, ?_⟩
    intro a ha hb
    rw [List.mem_singleton] at hb
    subst hb
    exact not_mem_msgSids_of_dbFind_none hfind ha
  · rw [hids, createdRow_id, List.nodup_append]
    refine ⟨hwf2, List.nodup_singleton _, ?_⟩
    intro a ha hb
    rw [List.mem_singleton] at hb
    subst hb
    exact nextId_not_mem_msgIds hwf3 ha
  · intro mm hmm
    rw [hM] at hmm
    rw [hN]
    rcases List.mem_append.mp hmm with h | h
    · exact lt_trans (hwf3 mm h) (Nat.lt_succ_self _)
    · rw [List.mem_singleton] at h
      subst h
      rw [createdRow_id]
      exact Nat.lt_succ_self _
  · intro t ht
    rw [dbFind_append (createdRow ctx db.nextId s m) hM t, createdRow_twilioSid,
      if_neg (fun h => ht (Option.some.inj h)), Option.or_none]
  · rw [dbFind_append (createdRow ctx db.nextId s m) hM s, createdRow_twilioSid,
      if_pos rfl, hfind]
    rfl
  · rw [hM]
    simp
  · intro d row hrow hd row2 hrow2 hid
    rw [hM] at hrow2
    rcases List.mem_append.mp hrow2 with h | h
    · rw [row_eq_of_id_eq hwf2 h hrow hid]
      exact hd
    · rw [List.mem_singleton] at h
      subst h
      rw [createdRow_id] at hid
      exact absurd (hid ▸ hwf3 row hrow) (lt_irrefl _)

/-- Post-state of the update branch of the upsert step (the live row is the
snapshot row, because the snapshot agrees with the store and primary keys
are unique). -/
theorem update_post (ctx : SyncContext) {db db2 : DB} {s : String} {m : TwilioMsg}
    {current : Message}
    (hM : db2.messages =
      (dbUpdateMessage db current.id (updatePatch ctx current s m)).messages)
    (hN : db2.nextId = db.nextId)
    (hwf : dbWf db) (hfind : dbFind db s = some current) :
    dbWf db2 ∧
    (∀ t, s ≠ t → dbFind db2 t = dbFind db t) ∧
    dbFind db2 s = some (updatePatch ctx current s m current) ∧
    msgSids db2 = msgSids db ∧
    db2.messages.length = db.messages.length ∧
    (∀ (d : Nat) (row : Message), row ∈ db.messages → row.deliveredAt = some d →
      ∀ row2 ∈ db2.messages, row2.id = row.id → row2.deliveredAt = some d) := by
  obtain ⟨hwf1, hwf2, hwf3⟩ := hwf
  obtain ⟨hcurmem, hcursid⟩ := dbFind_mem hfind
  have hfind2 := dbFind_congr hM
  have hupd := dbFind_dbUpdateMessage db current.id (updatePatch ctx current s m)
    (updatePatch_twilioSid ctx current s m) 
  have hsids2 : msgSids db2 = msgSids db := by
    have h1 : msgSids db2 = msgSids (dbUpdateMessage db current.id
        (updatePatch ctx current s m)) := by
      unfold msgSids
      rw [hM]
    rw [h1, msgSids_dbUpdateMessage _ _ _ (updatePatch_twilioSid ctx current s m)]
  have hids2 : msgIds db2 = msgIds db := by
    have h1 : msgIds db2 = msgIds (dbUpdateMessage db current.id
        (updatePatch ctx current s m)) := by
      unfold msgIds
      rw [hM]
    rw [h1, msgIds_dbUpdateMessage _ _ _ (updatePatch_id ctx current s m)]
  refine ⟨⟨?_, ?_, ?_⟩, ?_, ?_, hsids2, ?_, ?_⟩
  · rw [hsids2]; exact hwf1
  · rw [hids2]; exact hwf2
  · intro mm hmm
    rw [hM] at hmm
    rcases List.mem_map.mp hmm with ⟨m0, hm0, rfl⟩
    rw [hN]
    by_cases hcase : m0.id = current.id
    · rw [if_pos hcase, updatePatch_id, hcase]
      exact hcase ▸ hwf3 m0 hm0
    · rw [if_neg hcase]
      exact hwf3 m0 hm0
  · intro t ht
    rw [hfind2 t, hupd t]
    cases hrt : dbFind db t with
    | none => rfl
    | some rowT =>
      obtain ⟨hrtmem, hrtsid⟩ := dbFind_mem hrt
      have hne : rowT.id ≠ current.id := by
        intro h
        have := row_eq_of_id_eq hwf2 hrtmem hcurmem h
        rw [this, hcursid] at hrtsid
        exact ht (Option.some.inj hrtsid)
      simp [hne]
  · rw [hfind2 s, hupd s, hfind]
    simp
  · rw [hM]
    simp [dbUpdateMessage]
  · intro d row hrow hd row2 hrow2 hid
    rw [hM] at hrow2
    rcases List.mem_map.mp hrow2 with ⟨m0, hm0, rfl⟩
    by_cases hcase : m0.id = current.id
    · rw [if_pos hcase] at hid ⊢
      rw [updatePatch_id] at hid
      have hm0row : m0 = row := row_eq_of_id_eq hwf2 hm0 hrow hid
      have hcur : current = row :=
        row_eq_of_id_eq hwf2 hcurmem hrow (by rw [← hcase, hm0row])
      rw [hm0row, hcur]
      exact updatePatch_deliveredAt_self ctx s m row hd
  
    · rw [if_neg hcase] at hid ⊢
      rw [row_eq_of_id_eq hwf2 hm0 hrow hid]
      exact hd

end HistorySync

namespace HistorySync

/-- Soundness of one iteration of the upsert loop when the `existingBySid`
snapshot agrees with the live store on the record's SID: the step cannot
fail, preserves store well-formedness, leaves other SIDs untouched, leaves
the record's row in a state that a re-run would skip, inserts exactly when
the SID was absent, and never clears a `deliveredAt`. -/
theorem processRecord_sound (ctx : SyncContext) (snap : String → Option Message)
    (db : DB) (counts : SyncCounts) (m : TwilioMsg)
    (hwf : dbWf db)
    (hcoh : ∀ s, goodSid m = some s → snap s = dbFind db s) :
    ∃ db' counts',
      processRecord ctx snap db counts m = (db', counts', none) ∧
      dbWf db' ∧
      db.nextId ≤ db'.nextId ∧
      db'.conversations = db.conversations ∧
      (∀ t, goodSid m ≠ some t → dbFind db' t = dbFind db t) ∧
      (∀ s, goodSid m = some s →
        ∃ row, dbFind db' s = some row ∧
          skipCond ctx.includeMedia ctx.resolveMedia row s m) ∧
      msgSids db' = msgSids db ++
        (match goodSid m with
         | some s => if (dbFind db s).isNone then [s] else []
         | none => []) ∧
      db'.messages.length = db.messages.length +
        (match goodSid m with
         | some s => if (dbFind db s).isNone then 1 else 0
         | none => 0) ∧
      counts'.inserted = counts.inserted +
        (match goodSid m with
         | some s => if (dbFind db s).isNone then 1 else 0
         | none => 0) ∧
      counts'.updated = counts.updated +
        (match goodSid m with
         | none => 0
         | some s =>
           match dbFind db s with
           | none => 0
           | some row =>
             if skipCond ctx.includeMedia ctx.resolveMedia row s m then 0 else 1) ∧
      (∀ (d : Nat) (row : Message), row ∈ db.messages → row.deliveredAt = some d →
        ∀ row2 ∈ db'.messages, row2.id = row.id → row2.deliveredAt = some d) ∧
      (∀ row ∈ db.messages, ∃ row2 ∈ db'.messages, row2.id = row.id ∧
        ∀ d : Nat, row.deliveredAt = some d → row2.deliveredAt = some d) := by
  cases hgs : goodSid m with
  | none =>
    refine ⟨db, counts, processRecord_noSid ctx snap db counts hgs, hwf,
      le_refl _, rfl, fun t _ => rfl, ?_, by simp, by simp, by simp, by simp, ?_,
      fun row hrow => ⟨row, hrow, rfl, fun _ hd => hd⟩⟩
    · intro s hs
      exact Option.noConfusion hs
    · intro d row hrow hd row2 hrow2 hid
      rw [row_eq_of_id_eq hwf.2.1 hrow2 hrow hid]
      exact hd
  | some s =>
    have hsnap := hcoh s hgs
    cases hfind : dbFind db s with
    | none =>
      have hsnap2 : snap s = none := hsnap.trans hfind
      have hfree : sidTaken db s = false := dbFind_none_sidTaken_false hfind
      have heq := processRecord_create ctx snap db counts hgs hsnap2 hfree
      obtain ⟨hwf2, hframe, hfound, hsids, hlen, hdel⟩ :=
        create_post ctx
          (show ({ db with
              messages := db.messages ++ [createdRow ctx db.nextId s m]
              statusEvents := db.statusEvents ++
                [⟨db.nextId, recStatus m, recUpdatedAt ctx.now m⟩]
              nextId := db.nextId + 1 } : DB).messages =
            db.messages ++ [createdRow ctx db.nextId s m] from rfl)
          rfl hwf hfind
      refine ⟨_, _, heq, hwf2, Nat.le_succ _, rfl, ?_, ?_, ?_, ?_, ?_, ?_, hdel,
        fun row hrow => ⟨row, List.mem_append_left _ hrow, rfl, fun _ hd => hd⟩⟩
      · intro t ht
        refine hframe t (fun h => ht ?_)
        rw [h]
      · intro s2 hs2
        obtain rfl := Option.some.inj hs2
        refine ⟨createdRow ctx db.nextId s m, hfound, rfl, ?_⟩
        intro hh
        obtain ⟨ha, hb, hc⟩ := hh
        have : (createdRow ctx db.nextId s m).mediaUrls =
            recMedia ctx.includeMedia ctx.resolveMedia s m := rfl
        rw [this] at hb
        rw [hb] at hc
        exact absurd hc (lt_irrefl _)
      · rw [hsids]
        simp [hfind]
      · rw [hlen]
        simp [hfind]
      · simp [hfind]
      · simp [hfind]
    | some current =>
      have hsnap2 : snap s = some current := hsnap.trans hfind
      by_cases hskip : skipCond ctx.includeMedia ctx.resolveMedia current s m
      · have heq := processRecord_skip ctx snap db counts hgs hsnap2 hskip
        refine ⟨db, counts, heq, hwf, le_refl _, rfl, fun t _ => rfl, ?_,
          by simp [hfind], by simp [hfind], by simp [hfind],
          by simp [hfind, hskip], ?_,
          fun row hrow => ⟨row, hrow, rfl, fun _ hd => hd⟩⟩
        · intro s2 hs2
          obtain rfl := Option.some.inj hs2
          exact ⟨current, hfind, hskip⟩
        · intro d row hrow hd row2 hrow2 hid
          rw [row_eq_of_id_eq hwf.2.1 hrow2 hrow hid]
          exact hd
      · have heq := processRecord_write ctx snap db counts hgs hsnap2 hskip
        have hM : (((fun db1 =>
            if (current.status ≠ recStatus m : Bool) then
              { db1 with statusEvents := db1.statusEvents ++
                  [⟨current.id, recStatus m, recUpdatedAt ctx.now m⟩] }
            else db1)
          (dbUpdateMessage db current.id (updatePatch ctx current s m))) : DB).messages =
            (dbUpdateMessage db current.id (updatePatch ctx current s m)).messages := by
          split <;> rfl
        have hN : (((fun db1 =>
            if (current.status ≠ recStatus m : Bool) then
              { db1 with statusEvents := db1.statusEvents ++
                  [⟨current.id, recStatus m, recUpdatedAt ctx.now m⟩] }
            else db1)
          (dbUpdateMessage db current.id (updatePatch ctx current s m))) : DB).nextId =
            db.nextId := by
          split <;> rfl
        have hC : (((fun db1 =>
            if (current.status ≠ recStatus m : Bool) then
              { db1 with statusEvents := db1.statusEvents ++
                  [⟨current.id, recStatus m, recUpdatedAt ctx.now m⟩] }
            else db1)
          (dbUpdateMessage db current.id (updatePatch ctx current s m))) : DB).conversations =
            db.conversations := by
          split <;> rfl
        obtain ⟨hwf2, hframe, hfound, hsids, hlen, hdel⟩ :=
          update_post ctx hM hN hwf hfind
        refine ⟨_, _, heq, hwf2, le_of_eq hN.symm, hC, ?_, ?_, ?_, ?_, ?_, ?_, hdel, ?_⟩
        · intro t ht
          refine hframe t (fun h => ht ?_)
          rw [h]
        · intro s2 hs2
          obtain rfl := Option.some.inj hs2
          refine ⟨updatePatch ctx current s m current, hfound, rfl, ?_⟩
          intro hh
          obtain ⟨ha, hb, hc⟩ := hh
          have hmedia : (updatePatch ctx current s m current).mediaUrls =
              (if (ctx.includeMedia && current.mediaUrls.length == 0 &&
                (recMedia ctx.includeMedia ctx.resolveMedia s m).length > 0 : Bool) then
                recMedia ctx.includeMedia ctx.resolveMedia s m
              else current.mediaUrls) := rfl
          rw [hmedia] at hb
          by_cases hcase : (ctx.includeMedia && current.mediaUrls.length == 0 &&
              (recMedia ctx.includeMedia ctx.resolveMedia s m).length > 0 : Bool) = true
          · rw [if_pos hcase] at hb
            rw [hb] at hc
            exact absurd hc (lt_irrefl _)
          · rw [if_neg hcase] at hb
            apply hcase
            rw [ha] at hc ⊢
            simp [hb, hc]
        · rw [hsids]
          simp [hfind]
        · rw [hlen]
          simp [hfind]
        · simp [hfind]
        · simp [hfind, hskip]
        · intro row hrow
          refine ⟨if row.id = current.id then updatePatch ctx current s m row else row,
            ?_, ?_, ?_⟩
          · rw [hM]
            exact List.mem_map_of_mem _ hrow
          · by_cases hcase : row.id = current.id
            · rw [if_pos hcase, updatePatch_id]
            · rw [if_neg hcase]
          · intro d hd
            by_cases hcase : row.id = current.id
            · rw [if_pos hcase]
              have hcur : current = row :=
                row_eq_of_id_eq hwf.2.1 (dbFind_mem hfind).1 hrow hcase.symm
              rw [hcur]
              exact updatePatch_deliveredAt_self ctx s m row hd
            · rw [if_neg hcase]
              exact hd

end HistorySync

theorem sidsOf_cons (hd : TwilioMsg) (tl : List TwilioMsg) :
    sidsOf (hd :: tl) =
      match goodSid hd with
      | some s => s :: sidsOf tl
      | none => sidsOf tl := by
  unfold sidsOf
  rw [List.filterMap_cons]
  cases goodSid hd <;> rfl

namespace HistorySync

/-- Soundness of the sequential upsert loop: with a snapshot that agrees
with the live store on every SID of the (duplicate-free) record list, the
loop cannot fail, preserves well-formedness, leaves every row in a state
the same records would skip, inserts exactly one row per absent SID (and
updates nothing when all SIDs are absent), and never clears a
`deliveredAt`. -/
theorem processRecords_sound (ctx : SyncContext) (snap : String → Option Message) :
    ∀ (l : List TwilioMsg) (db : DB) (counts : SyncCounts),
    dbWf db →
    (sidsOf l).Nodup →
    (∀ s ∈ sidsOf l, snap s = dbFind db s) →
    ∃ db' counts',
      processRecords ctx snap db counts l = (db', counts', none) ∧
      dbWf db' ∧
      db.nextId ≤ db'.nextId ∧
      db'.conversations = db.conversations ∧
      (∀ t, t ∉ sidsOf l → dbFind db' t = dbFind db t) ∧
      (∀ m ∈ l, ∀ s, goodSid m = some s →
        ∃ row, dbFind db' s = some row ∧
          skipCond ctx.includeMedia ctx.resolveMedia row s m) ∧
      msgSids db' = msgSids db ++ (sidsOf l).filter (fun s => (dbFind db s).isNone) ∧
      db'.messages.length = db.messages.length +
        ((sidsOf l).filter (fun s => (dbFind db s).isNone)).length ∧
      counts'.inserted = counts.inserted +
        ((sidsOf l).filter (fun s => (dbFind db s).isNone)).length ∧
      ((∀ s ∈ sidsOf l, dbFind db s = none) → counts'.updated = counts.updated) ∧
      (∀ (d : Nat) (row : Message), row ∈ db.messages → row.deliveredAt = some d →
        ∀ row2 ∈ db'.messages, row2.id = row.id → row2.deliveredAt = some d) ∧
      (∀ row ∈ db.messages, ∃ row2 ∈ db'.messages, row2.id = row.id ∧
        ∀ d : Nat, row.deliveredAt = some d → row2.deliveredAt = some d) := by
  intro l
  induction l with
  | nil =>
    intro db counts hwf _ _
    refine ⟨db, counts, rfl, hwf, le_refl _, rfl, fun t _ => rfl, ?_,
      by simp [sidsOf], by simp [sidsOf], by simp [sidsOf], fun _ => rfl, ?_,
      fun row hrow => ⟨row, hrow, rfl, fun _ hd => hd⟩⟩
    · intro m hm
      cases hm
    · intro d row hrow hd row2 hrow2 hid
      rw [row_eq_of_id_eq hwf.2.1 hrow2 hrow hid]
      exact hd
  | cons hd tl ih =>
    intro db counts hwf hnodup hcoh
    have hcoh1 : ∀ s, goodSid hd = some s → snap s = dbFind db s := by
      intro s hs
      apply hcoh
      rw [sidsOf_cons, hs]
      exact List.mem_cons_self _ _
    obtain ⟨db1, counts1, heq1, hwf1, hle1, hconv1, hframe1, hpost1, hsids1,
      hlen1, hins1, hupd1, hdel1, hex1⟩ :=
      processRecord_sound ctx snap db counts hd hwf hcoh1
    cases hgs : goodSid hd with
    | none =>
      have hSl : sidsOf (hd :: tl) = sidsOf tl := by
        rw [sidsOf_cons, hgs]
      have hframe1all : ∀ t, dbFind db1 t = dbFind db t := by
        intro t
        apply hframe1
        rw [hgs]
        exact fun h => Option.noConfusion h
      rw [hSl] at hnodup hcoh
      simp only [hgs] at hsids1 hlen1 hins1 hupd1
      have hcoh2 : ∀ s ∈ sidsOf tl, snap s = dbFind db1 s := by
        intro s hs
        rw [hframe1all s]
        exact hcoh s hs
      obtain ⟨db2, counts2, heq2, hwf2, hle2, hconv2, hframe2, hpost2, hsids2,
        hlen2, hins2, hupd2, hdel2, hex2⟩ := ih db1 counts1 hwf1 hnodup hcoh2
      have hfiltereq : (sidsOf tl).filter (fun s => (dbFind db1 s).isNone) =
          (sidsOf tl).filter (fun s => (dbFind db s).isNone) := by
        apply List.filter_congr
        intro s _
        rw [hframe1all s]
      refine ⟨db2, counts2, ?_, hwf2, le_trans hle1 hle2,
        hconv2.trans hconv1, ?_, ?_, ?_, ?_, ?_, ?_, ?_, ?_⟩
      · simp only [processRecords, heq1]
        exact heq2
      · intro t ht
        rw [hSl] at ht
        rw [hframe2 t ht, hframe1all t]
      · intro m hm s hs
        rcases List.mem_cons.mp hm with rfl | hm2
        · rw [hgs] at hs
          cases hs
        · exact hpost2 m hm2 s hs
      · rw [hSl, hsids2, hfiltereq, hsids1]
        simp
      · rw [hSl, hlen2, hfiltereq, hlen1]
        simp
      · rw [hSl, hins2, hfiltereq, hins1]
        simp
      · intro hfresh
        rw [hSl] at hfresh
        have h2 := hupd2 (fun s hs => by rw [hframe1all s]; exact hfresh s hs)
        rw [h2]
        omega
      · intro d row hrow hd2 row2 hrow2 hid
        obtain ⟨row1, hrow1, hid1, hpres1⟩ := hex1 row hrow
        exact hdel2 d row1 hrow1 (hpres1 d hd2) row2 hrow2 (hid1 ▸ hid)
      · intro row hrow
        obtain ⟨row1, hrow1, hid1, hpres1⟩ := hex1 row hrow
        obtain ⟨row2, hrow2, hid2, hpres2⟩ := hex2 row1 hrow1
        exact ⟨row2, hrow2, hid2.trans hid1, fun d hd2 => hpres2 d (hpres1 d hd2)⟩
    | some s0 =>
      have hSl : sidsOf (hd :: tl) = s0 :: sidsOf tl := by
        rw [sidsOf_cons, hgs]
      rw [hSl] at hnodup hcoh
      obtain ⟨hs0notin, hnodupTl⟩ := List.nodup_cons.mp hnodup
      simp only [hgs] at hsids1 hlen1 hins1 hupd1
      have hframe1tl : ∀ s ∈ sidsOf tl, dbFind db1 s = dbFind db s := by
        intro s hs
        apply hframe1
        rw [hgs]
        intro h
        exact hs0notin ((Option.some.inj h) ▸ hs)
      have hcoh2 : ∀ s ∈ sidsOf tl, snap s = dbFind db1 s := by
        intro s hs
        rw [hframe1tl s hs]
        exact hcoh s (List.mem_cons_of_mem _ hs)
      obtain ⟨db2, counts2, heq2, hwf2, hle2, hconv2, hframe2, hpost2, hsids2,
        hlen2, hins2, hupd2, hdel2, hex2⟩ := ih db1 counts1 hwf1 hnodupTl hcoh2
      have hfiltereq : (sidsOf tl).filter (fun s => (dbFind db1 s).isNone) =
          (sidsOf tl).filter (fun s => (dbFind db s).isNone) := by
        apply List.filter_congr
        intro s hs
        rw [hframe1tl s hs]
      refine ⟨db2, counts2, ?_, hwf2, le_trans hle1 hle2,
        hconv2.trans hconv1, ?_, ?_, ?_, ?_, ?_, ?_, ?_, ?_⟩
      · simp only [processRecords, heq1]
        exact heq2
      · intro t ht
        rw [hSl] at ht
        have ht1 : t ≠ s0 := fun h => ht (h ▸ List.mem_cons_self _ _)
        have ht2 : t ∉ sidsOf tl := fun h => ht (List.mem_cons_of_mem _ h)
        rw [hframe2 t ht2]
        apply hframe1
        rw [hgs]
        intro h
        exact ht1 (Option.some.inj h).symm
      · intro m hm s hs
        rcases List.mem_cons.mp hm with rfl | hm2
        · rw [hgs] at hs
          obtain rfl := Option.some.inj hs
          obtain ⟨row, hrow, hsk⟩ := hpost1 s0 hgs
          refine ⟨row, ?_, hsk⟩
          rw [hframe2 s0 hs0notin]
          exact hrow
        · exact hpost2 m hm2 s hs
      · rw [hSl, hsids2, hfiltereq, hsids1, List.append_assoc]
        simp only [List.filter_cons]
        by_cases hfr : (dbFind db s0).isNone = true
        · rw [if_pos hfr, if_pos hfr]
          rfl
        · rw [if_neg hfr, if_neg hfr]
          rfl
      · rw [hSl, hlen2, hfiltereq, hlen1]
        simp only [List.filter_cons]
        by_cases hfr : (dbFind db s0).isNone = true
        · rw [if_pos hfr, if_pos hfr]
          simp only [List.length_cons]
          omega
        · rw [if_neg hfr, if_neg hfr]
          omega
      · rw [hSl, hins2, hfiltereq, hins1]
        simp only [List.filter_cons]
        by_cases hfr : (dbFind db s0).isNone = true
        · rw [if_pos hfr, if_pos hfr]
          simp only [List.length_cons]
          omega
        · rw [if_neg hfr, if_neg hfr]
          omega
      · intro hfresh
        rw [hSl] at hfresh
        have hf0 := hfresh s0 (List.mem_cons_self _ _)
        simp only [hf0] at hupd1
        have h2 := hupd2 (fun s hs => by
          rw [hframe1tl s hs]
          exact hfresh s (List.mem_cons_of_mem _ hs))
        rw [h2]
        omega
      · intro d row hrow hd2 row2 hrow2 hid
        obtain ⟨row1, hrow1, hid1, hpres1⟩ := hex1 row hrow
        exact hdel2 d row1 hrow1 (hpres1 d hd2) row2 hrow2 (hid1 ▸ hid)
      · intro row hrow
        obtain ⟨row1, hrow1, hid1, hpres1⟩ := hex1 row hrow
        obtain ⟨row2, hrow2, hid2, hpres2⟩ := hex2 row1 hrow1
        exact ⟨row2, hrow2, hid2.trans hid1, fun d hd2 => hpres2 d (hpres1 d hd2)⟩

end HistorySync

/-! ### Slicing and summary lemmas -/

theorem slicedOf_eq_of_le {outbound inbound : List TwilioMsg} {limit : Nat}
    (h : (mergeTwilioLists outbound inbound).length ≤ limit) :
    slicedOf outbound inbound limit = mergeTwilioLists outbound inbound := by
  unfold slicedOf
  rw [if_neg (by omega)]

theorem slicedOf_sublist (outbound inbound : List TwilioMsg) (limit : Nat) :
    (slicedOf outbound inbound limit).Sublist (mergeTwilioLists outbound inbound) := by
  unfold slicedOf
  dsimp only
  split
  · exact List.drop_sublist _ _
  · exact List.Sublist.refl _

theorem sidsOf_slicedOf_nodup (outbound inbound : List TwilioMsg) (limit : Nat) :
    (sidsOf (slicedOf outbound inbound limit)).Nodup :=
  ((slicedOf_sublist outbound inbound limit).filterMap goodSid).nodup
    (sidsOf_merge_nodup outbound inbound)

theorem mem_of_mem_slicedOf {outbound inbound : List TwilioMsg} {limit : Nat}
    {m : TwilioMsg} (h : m ∈ slicedOf outbound inbound limit) :
    m ∈ mergeTwilioLists outbound inbound :=
  (slicedOf_sublist outbound inbound limit).subset h

theorem convFind_dbUpdateConversation (db : DB) (cid : String)
    (patch : Conversation → Conversation) (hid : ∀ c, (patch c).id = c.id)
    (cid2 : String) :
    (dbUpdateConversation db cid patch).conversations.find? (fun c => c.id = cid2) =
      (db.conversations.find? (fun c => c.id = cid2)).map
        (fun c => if c.id = cid then patch c else c) := by
  unfold dbUpdateConversation
  simp only
  rw [List.find?_map]
  have hp : ((fun c : Conversation => decide (c.id = cid2)) ∘
      (fun c => if c.id = cid then patch c else c)) =
      (fun c : Conversation => decide (c.id = cid2)) := by
    funext c
    by_cases hc : c.id = cid
    · simp [Function.comp, hc, hid]
    · simp [Function.comp, hc]
  rw [hp]

theorem convFind_isSome_dbUpdateConversation (db : DB) (cid : String)
    (patch : Conversation → Conversation) (hid : ∀ c, (patch c).id = c.id)
    (cid2 : String) :
    (((dbUpdateConversation db cid patch).conversations.find?
        (fun c => c.id = cid2)).isSome) =
      ((db.conversations.find? (fun c => c.id = cid2)).isSome) := by
  rw [convFind_dbUpdateConversation db cid patch hid cid2]
  cases db.conversations.find? (fun c => c.id = cid2) <;> rfl

namespace HistorySync

theorem updateConversationSummary_messages (ctx : SyncContext)
    (sliced : List TwilioMsg) (db : DB) :
    (updateConversationSummary ctx sliced db).messages = db.messages := by
  unfold updateConversationSummary
  split
  · rfl
  · split
    · rfl
    · rfl

theorem updateConversationSummary_nextId (ctx : SyncContext)
    (sliced : List TwilioMsg) (db : DB) :
    (updateConversationSummary ctx sliced db).nextId = db.nextId := by
  unfold updateConversationSummary
  split
  · rfl
  · split
    · rfl
    · rfl

theorem updateConversationSummary_convFind_isSome (ctx : SyncContext)
    (sliced : List TwilioMsg) (db : DB) (cid2 : String) :
    (((updateConversationSummary ctx sliced db).conversations.find?
        (fun c => c.id = cid2)).isSome) =
      ((db.conversations.find? (fun c => c.id = cid2)).isSome) := by
  unfold updateConversationSummary
  split
  · rfl
  · split
    · rfl
    · dsimp only
      apply convFind_isSome_dbUpdateConversation
      intro c
      rfl

/-- Equation for a sync run on an existing conversation, in terms of the
upsert loop over the sliced merge. -/
theorem syncConversationFromTwilio_eq (db : DB) (cid : String)
    (outbound inbound : List TwilioMsg) (limit : Nat) (includeMedia : Bool)
    (resolveMedia : String → List String) (now : Nat)
    (hconv : (db.conversations.find? (fun c => c.id = cid)).isSome) :
    syncConversationFromTwilio db cid outbound inbound limit includeMedia
        resolveMedia now =
      (match processRecords ⟨cid, includeMedia, resolveMedia, now⟩ (dbFind db) db
          ⟨0, 0⟩ (slicedOf outbound inbound limit) with
       | (db1, _, some e) => (db1, .error e)
       | (db1, counts, none) =>
         (updateConversationSummary ⟨cid, includeMedia, resolveMedia, now⟩
            (slicedOf outbound inbound limit) db1,
           .ok ⟨counts.inserted, counts.updated,
             (slicedOf outbound inbound limit).length⟩)) := by
  obtain ⟨c, hc⟩ := Option.isSome_iff_exists.mp hconv
  unfold syncConversationFromTwilio
  rw [hc]
  rfl

end HistorySync

namespace HistorySync

/-- A loop pass in which every record finds its row in a skippable state
writes nothing. -/
theorem processRecords_skips (ctx : SyncContext) (snap : String → Option Message) :
    ∀ (l : List TwilioMsg) (db : DB) (counts : SyncCounts),
    (∀ m ∈ l, ∀ s, goodSid m = some s →
      ∃ row, snap s = some row ∧ skipCond ctx.includeMedia ctx.resolveMedia row s m) →
    processRecords ctx snap db counts l = (db, counts, none) := by
  intro l
  induction l with
  | nil => intro db counts _; rfl
  | cons hd tl ih =>
    intro db counts hall
    cases hgs : goodSid hd with
    | none =>
      simp only [processRecords, processRecord_noSid ctx snap db counts hgs]
      exact ih db counts (fun m hm => hall m (List.mem_cons_of_mem _ hm))
    | some s =>
      obtain ⟨row, hrow, hsk⟩ := hall hd (List.mem_cons_self _ _) s hgs
      simp only [processRecords, processRecord_skip ctx snap db counts hgs hrow hsk]
      exact ih db counts (fun m hm => hall m (List.mem_cons_of_mem _ hm))

end HistorySync

namespace BulkSync

/-- Rows of a patched message table descend from rows of the original
table with the same id and `deliveredAt`, provided the patch preserves
both. -/
theorem dbUpdateMessage_row_origin_del {db : DB} {eid : Nat}
    {patch : Message → Message} {row : Message}
    (hrow : row ∈ (dbUpdateMessage db eid patch).messages)
    (hpid : ∀ m, (patch m).id = m.id)
    (hpdel : ∀ m, (patch m).deliveredAt = m.deliveredAt) :
    ∃ old ∈ db.messages, old.id = row.id ∧
      old.deliveredAt = row.deliveredAt := by
  simp only [dbUpdateMessage, List.mem_map] at hrow
  obtain ⟨old, hold, heq⟩ := hrow
  refine ⟨old, hold, ?_, ?_⟩
  · rw [← heq]
    by_cases h : old.id = eid
    · rw [if_pos h, hpid]
    · rw [if_neg h]
  · rw [← heq]
    by_cases h : old.id = eid
    · rw [if_pos h, hpdel]
    · rw [if_neg h]

/-- The per-counterparty record loop preserves uniqueness of the stored
non-null SIDs: its only create is guarded by the `messages_twilioSid_key`
unique index (modelled by `sidTaken`), and its update keeps every row's
SID. -/
theorem processContactMessages_sidNodup (includeMedia : Bool)
    (resolveMedia : String → List String) (now : Nat) (ourNumbers : List String)
    (conversationId : String) (T : ChannelType) (snap : String → Option Message) :
    ∀ (msgs : List TwilioMsg) (db : DB) (result : BulkSyncResult)
      (lb : String) (la : Nat),
      (msgSids db).Nodup →
      (msgSids ((processContactMessages includeMedia resolveMedia now ourNumbers
        conversationId T snap db result lb la msgs).1)).Nodup := by
  intro msgs
  induction msgs with
  | nil => intro db result lb la h; exact h
  | cons hd tl ih =>
    intro db result lb la hnodup
    simp only [processContactMessages]
    split
    · exact ih _ _ _ _ hnodup
    · rename_i sid hsid
      split
      · split
        · exact hnodup
        · rename_i htaken
          refine ih _ _ _ _ ?_
          have hM : ({ db with
              messages := db.messages ++ [createdRow includeMedia resolveMedia
                now ourNumbers conversationId T db.nextId sid hd]
              statusEvents := db.statusEvents ++
                [⟨db.nextId, recStatus hd, recUpdatedAt now hd⟩]
              nextId := db.nextId + 1 } : DB).messages =
              db.messages ++ [createdRow includeMedia resolveMedia now
                ourNumbers conversationId T db.nextId sid hd] := rfl
          rw [msgSids_append hM
            (show (createdRow includeMedia resolveMedia now ourNumbers
              conversationId T db.nextId sid hd).twilioSid = some sid from rfl)]
          rw [List.nodup_append]
          refine ⟨hnodup, List.nodup_singleton sid, ?_⟩
          intro a ha hb
          rw [List.mem_singleton] at hb
          rw [hb] at ha
          have hfalse : sidTaken db sid = false := by
            rcases Bool.eq_false_or_eq_true (sidTaken db sid) with h | h
            · exact absurd h htaken
            · exact h
          rcases mem_msgSids.mp ha with ⟨mm, hmm, hsidm⟩
          exact absurd hsidm (sidTaken_eq_false.mp hfalse mm hmm)

      · rename_i existing hex
        split
        · refine ih _ _ _ _ ?_
          show (msgSids (dbUpdateMessage db existing.id (fun m =>
            { m with
                status := recStatus hd
                errorCode := hd.errorCode.map toString
                errorMessage := jsOrUndefined hd.errorMessage
                updatedAt := recUpdatedAt now hd }))).Nodup
          rw [msgSids_dbUpdateMessage db existing.id (fun m =>
            { m with
                status := recStatus hd
                errorCode := hd.errorCode.map toString
                errorMessage := jsOrUndefined hd.errorMessage
                updatedAt := recUpdatedAt now hd }) (fun m => rfl)]
          exact hnodup
        · exact ih _ _ _ _ hnodup

/-- Implication form of `processContactMessages_sidNodup`. -/
theorem processContactMessages_sidNodup2 {includeMedia : Bool}
    {resolveMedia : String → List String} {now : Nat} {ourNumbers : List String}
    {conversationId : String} {T : ChannelType} {snap : String → Option Message}
    {db : DB} {result : BulkSyncResult} {lb : String} {la : Nat}
    {msgs : List TwilioMsg}
    {out : DB × BulkSyncResult × String × Nat × Option String}
    (h : processContactMessages includeMedia resolveMedia now ourNumbers
      conversationId T snap db result lb la msgs = out) :
    (msgSids db).Nodup → (msgSids out.1).Nodup := by
  intro hn
  have hk := processContactMessages_sidNodup includeMedia resolveMedia now
    ourNumbers conversationId T snap msgs db result lb la hn
  rw [h] at hk
  exact hk

/-- The per-counterparty record loop never lowers the id generator, and
every row it leaves with an id below the entry `nextId` descends from an
entry row with the same id and the same `deliveredAt` (the bulk update
patch does not touch `deliveredAt`). -/
theorem processContactMessages_ids (includeMedia : Bool)
    (resolveMedia : String → List String) (now : Nat) (ourNumbers : List String)
    (conversationId : String) (T : ChannelType) (snap : String → Option Message) :
    ∀ (msgs : List TwilioMsg) (db : DB) (result : BulkSyncResult)
      (lb : String) (la : Nat),
      db.nextId ≤ ((processContactMessages includeMedia resolveMedia now
        ourNumbers conversationId T snap db result lb la msgs).1).nextId ∧
      ∀ row2 ∈ ((processContactMessages includeMedia resolveMedia now
          ourNumbers conversationId T snap db result lb la msgs).1).messages,
        row2.id < db.nextId →
        ∃ row1 ∈ db.messages, row1.id = row2.id ∧
          row1.deliveredAt = row2.deliveredAt := by
  intro msgs
  induction msgs with
  | nil =>
    intro db result lb la
    exact ⟨Nat.le_refl _, fun row2 h2 _ => ⟨row2, h2, rfl, rfl⟩⟩
  | cons hd tl ih =>
    intro db result lb la
    simp only [processContactMessages]
    split
    · exact ih _ _ _ _
    · rename_i sid hsid
      split
      · split
        · exact ⟨Nat.le_refl _, fun row2 h2 _ => ⟨row2, h2, rfl, rfl⟩⟩
        · have hih := ih ({ db with
              messages := db.messages ++ [createdRow includeMedia resolveMedia
                now ourNumbers conversationId T db.nextId sid hd]
              statusEvents := db.statusEvents ++
                [⟨db.nextId, recStatus hd, recUpdatedAt now hd⟩]
              nextId := db.nextId + 1 } : DB)
            { result with messagesInserted := result.messagesInserted + 1 }
            (if recCreatedAt now hd > la then
              (if jsOr hd.body "" = "" then
                (if (recMedia includeMedia resolveMedia sid hd).length > 0
                  then "[Media]" else "")
               else jsOr hd.body "")
             else lb)
            (if recCreatedAt now hd > la then recCreatedAt now hd else la)
          refine ⟨Nat.le_trans (Nat.le_succ _) hih.1, ?_⟩
          intro row2 hr2 hlt
          obtain ⟨row1, hrow1, hideq, hdeleq⟩ :=
            hih.2 row2 hr2 (Nat.lt_succ_of_lt hlt)
          have hrow1b : row1 ∈ db.messages ++
              [createdRow includeMedia resolveMedia now ourNumbers
                conversationId T db.nextId sid hd] := hrow1
          rcases List.mem_append.mp hrow1b with h | h
          · exact ⟨row1, h, hideq, hdeleq⟩
          · rw [List.mem_singleton] at h
            subst h
            have hni : db.nextId = row2.id := hideq
            omega
      · rename_i existing hex
        split
        · have hih := ih ({ (dbUpdateMessage db existing.id (fun m =>
              { m with
                  status := recStatus hd
                  errorCode := hd.errorCode.map toString
                  errorMessage := jsOrUndefined hd.errorMessage
                  updatedAt := recUpdatedAt now hd })) with
              statusEvents := (dbUpdateMessage db existing.id (fun m =>
                { m with
                    status := recStatus hd
                    errorCode := hd.errorCode.map toString
                    errorMessage := jsOrUndefined hd.errorMessage
                    updatedAt := recUpdatedAt now hd })).statusEvents ++
                [⟨existing.id, recStatus hd, recUpdatedAt now hd⟩] } : DB)
            { result with messagesUpdated := result.messagesUpdated + 1 }
            (if recCreatedAt now hd > la then
              (if jsOr hd.body "" = "" then
                (if (recMedia includeMedia resolveMedia sid hd).length > 0
                  then "[Media]" else "")
               else jsOr hd.body "")
             else lb)
            (if recCreatedAt now hd > la then recCreatedAt now hd else la)
          refine ⟨hih.1, ?_⟩
          intro row2 hr2 hlt
          obtain ⟨row1, hrow1, hideq, hdeleq⟩ := hih.2 row2 hr2 hlt
          obtain ⟨old, hold, hi2, hd2⟩ :=
            dbUpdateMessage_row_origin_del hrow1 (fun m => rfl) (fun m => rfl)
          exact ⟨old, hold, hi2.trans hideq, hd2.trans hdeleq⟩
        · exact ih _ _ _ _

/-- Implication form of `processContactMessages_ids`. -/
theorem processContactMessages_ids2 {includeMedia : Bool}
    {resolveMedia : String → List String} {now : Nat} {ourNumbers : List String}
    {conversationId : String} {T : ChannelType} {snap : String → Option Message}
    {db : DB} {result : BulkSyncResult} {lb : String} {la : Nat}
    {msgs : List TwilioMsg}
    {out : DB × BulkSyncResult × String × Nat × Option String}
    (h : processContactMessages includeMedia resolveMedia now ourNumbers
      conversationId T snap db result lb la msgs = out) :
    db.nextId ≤ (out.1).nextId ∧
    ∀ row2 ∈ (out.1).messages, row2.id < db.nextId →
      ∃ row1 ∈ db.messages, row1.id = row2.id ∧
        row1.deliveredAt = row2.deliveredAt := by
  have hk := processContactMessages_ids includeMedia resolveMedia now
    ourNumbers conversationId T snap msgs db result lb la
  rw [h] at hk
  exact hk

/-- Channel+contact find-or-create: at most one channel row is appended,
carrying the group's channel type; conversations and messages are
untouched. -/
theorem resolveChannelContact_shape (db : DB) (result : BulkSyncResult)
    (T : ChannelType) (num : String) :
    ((resolveChannelContact db result T num).1.channels = db.channels ∨
      (resolveChannelContact db result T num).1.channels =
        db.channels ++ [⟨toString db.nextId, T, num, true⟩]) ∧
    (resolveChannelContact db result T num).1.conversations =
      db.conversations ∧
    (resolveChannelContact db result T num).1.messages = db.messages := by
  unfold resolveChannelContact
  split
  · exact ⟨Or.inr rfl, rfl, rfl⟩
  · exact ⟨Or.inl rfl, rfl, rfl⟩

/-- Conversation find-or-create: at most one conversation row is appended,
carrying the group's channel type; channels and messages are untouched. -/
theorem resolveConversation_shape (db1 : DB) (cid : String) (T : ChannelType)
    (r1 : BulkSyncResult) :
    ((resolveConversation db1 cid T r1).1.conversations =
        db1.conversations ∨
      (resolveConversation db1 cid T r1).1.conversations =
        db1.conversations ++ [⟨toString db1.nextId, cid, T, none, none⟩]) ∧
    (resolveConversation db1 cid T r1).1.channels = db1.channels ∧
    (resolveConversation db1 cid T r1).1.messages = db1.messages := by
  unfold resolveConversation
  split
  · exact ⟨Or.inr rfl, rfl, rfl⟩
  · exact ⟨Or.inl rfl, rfl, rfl⟩

/-- Channel+contact find-or-create never lowers the id generator. -/
theorem resolveChannelContact_nextId (db : DB) (result : BulkSyncResult)
    (T : ChannelType) (num : String) :
    db.nextId ≤ (resolveChannelContact db result T num).1.nextId := by
  unfold resolveChannelContact
  split
  · exact Nat.le_succ _
  · exact Nat.le_refl _

/-- Conversation find-or-create never lowers the id generator. -/
theorem resolveConversation_nextId (db1 : DB) (cid : String) (T : ChannelType)
    (r1 : BulkSyncResult) :
    db1.nextId ≤ (resolveConversation db1 cid T r1).1.nextId := by
  unfold resolveConversation
  split
  · exact Nat.le_succ _
  · exact Nat.le_refl _

/-- One counterparty's processing preserves SID uniqueness, never lowers
the id generator, and keeps the id and `deliveredAt` of every row it
leaves with an id below the entry `nextId`. -/
theorem processContact_store (includeMedia : Bool)
    (resolveMedia : String → List String) (now : Nat) (ourNumbers : List String)
    (db : DB) (result : BulkSyncResult) (num : String)
    (msgs : List TwilioMsg) :
    ((msgSids db).Nodup →
      (msgSids ((processContact includeMedia resolveMedia now ourNumbers db
        result num msgs).1)).Nodup) ∧
    db.nextId ≤ ((processContact includeMedia resolveMedia now ourNumbers db
      result num msgs).1).nextId ∧
    ∀ row2 ∈ ((processContact includeMedia resolveMedia now ourNumbers db
        result num msgs).1).messages,
      row2.id < db.nextId →
      ∃ row1 ∈ db.messages, row1.id = row2.id ∧
        row1.deliveredAt = row2.deliveredAt := by
  unfold processContact
  split
  · exact ⟨fun h => h, Nat.le_refl _, fun row2 h2 _ => ⟨row2, h2, rfl, rfl⟩⟩
  · rename_i firstMsg rest
    dsimp only
    set T := inferChannelTypeFromTwilioMessage firstMsg with hT
    set st1 := resolveChannelContact db result T num with hst1
    set st2 := resolveConversation st1.1 st1.2.1 T st1.2.2 with hst2
    have hs1 := resolveChannelContact_shape db result T num
    have hs2 := resolveConversation_shape st1.1 st1.2.1 T st1.2.2
    rw [← hst1] at hs1
    rw [← hst2] at hs2
    have hn1 : db.nextId ≤ st1.1.nextId := by
      rw [hst1]
      exact resolveChannelContact_nextId db result T num
    have hn2 : st1.1.nextId ≤ st2.1.nextId := by
      rw [hst2]
      exact resolveConversation_nextId st1.1 st1.2.1 T st1.2.2
    have hmm : msgSids st2.1 = msgSids db := by
      unfold msgSids
      rw [hs2.2.2, hs1.2.2]
    split
    · rename_i db3 result3 x1 x2 e heq
      have hnn : (msgSids st2.1).Nodup → (msgSids db3).Nodup :=
        processContactMessages_sidNodup2 heq
      obtain ⟨hmono0, horig0⟩ := processContactMessages_ids2 heq
      have hmono : st2.1.nextId ≤ db3.nextId := hmono0
      have horig : ∀ row2 ∈ db3.messages, row2.id < st2.1.nextId →
          ∃ row1 ∈ st2.1.messages, row1.id = row2.id ∧
            row1.deliveredAt = row2.deliveredAt := horig0
      refine ⟨?_, ?_, ?_⟩
      · intro hnod
        refine hnn ?_
        rw [hmm]
        exact hnod
      · exact Nat.le_trans (Nat.le_trans hn1 hn2) hmono
      · intro row2 hr2 hlt
        obtain ⟨row1, hrow1, hideq, hdeleq⟩ := horig row2 hr2
          (Nat.lt_of_lt_of_le hlt (Nat.le_trans hn1 hn2))
        rw [hs2.2.2, hs1.2.2] at hrow1
        exact ⟨row1, hrow1, hideq, hdeleq⟩
    · rename_i db3 result3 lb la heq
      have hnn : (msgSids st2.1).Nodup → (msgSids db3).Nodup :=
        processContactMessages_sidNodup2 heq
      obtain ⟨hmono0, horig0⟩ := processContactMessages_ids2 heq
      have hmono : st2.1.nextId ≤ db3.nextId := hmono0
      have horig : ∀ row2 ∈ db3.messages, row2.id < st2.1.nextId →
          ∃ row1 ∈ st2.1.messages, row1.id = row2.id ∧
            row1.deliveredAt = row2.deliveredAt := horig0
      have hmain : ∀ row2 ∈ db3.messages, row2.id < db.nextId →
          ∃ row1 ∈ db.messages, row1.id = row2.id ∧
            row1.deliveredAt = row2.deliveredAt := by
        intro row2 hr2 hlt
        obtain ⟨row1, hrow1, hideq, hdeleq⟩ := horig row2 hr2
          (Nat.lt_of_lt_of_le hlt (Nat.le_trans hn1 hn2))
        rw [hs2.2.2, hs1.2.2] at hrow1
        exact ⟨row1, hrow1, hideq, hdeleq⟩
      refine ⟨?_, ?_, ?_⟩
      · intro hnod
        have hres : (msgSids db3).Nodup := hnn (by rw [hmm]; exact hnod)
        show (msgSids (if la > 0 then _ else db3)).Nodup
        split
        · exact hres
        · exact hres
      · have hres : db.nextId ≤ db3.nextId :=
          Nat.le_trans (Nat.le_trans hn1 hn2) hmono
        show db.nextId ≤ (if la > 0 then _ else db3).nextId
        split
        · exact hres
        · exact hres
      · intro row2 hr2 hlt
        refine hmain row2 ?_ hlt
        revert hr2
        show row2 ∈ (if la > 0 then _ else db3).messages → row2 ∈ db3.messages
        split
        · exact fun h => h
        · exact fun h => h

/-- The counterparty loop preserves SID uniqueness, never lowers the id
generator, and keeps the id and `deliveredAt` of every row it leaves with
an id below the entry `nextId`. -/
theorem bulkLoop_store (includeMedia : Bool)
    (resolveMedia : String → List String) (now : Nat)
    (ourNumbers : List String) :
    ∀ (groups : List (String × List TwilioMsg)) (db : DB)
      (result : BulkSyncResult),
      ((msgSids db).Nodup →
        (msgSids ((bulkLoop includeMedia resolveMedia now ourNumbers db result
          groups).1)).Nodup) ∧
      db.nextId ≤ ((bulkLoop includeMedia resolveMedia now ourNumbers db result
        groups).1).nextId ∧
      ∀ row2 ∈ ((bulkLoop includeMedia resolveMedia now ourNumbers db result
          groups).1).messages,
        row2.id < db.nextId →
        ∃ row1 ∈ db.messages, row1.id = row2.id ∧
          row1.deliveredAt = row2.deliveredAt := by
  intro groups
  induction groups with
  | nil =>
    intro db result
    exact ⟨fun h => h, Nat.le_refl _, fun row2 h2 _ => ⟨row2, h2, rfl, rfl⟩⟩
  | cons hd tl ih =>
    intro db result
    obtain ⟨num, msgs⟩ := hd
    simp only [bulkLoop]
    split
    · rename_i db1 result1 heq
      obtain ⟨ihn, ihm, iho⟩ := ih db1 result1
      have hp := processContact_store includeMedia resolveMedia now ourNumbers
        db result num msgs
      rw [heq] at hp
      have hpn : (msgSids db).Nodup → (msgSids db1).Nodup := hp.1
      have hpm : db.nextId ≤ db1.nextId := hp.2.1
      have hpo : ∀ row2 ∈ db1.messages, row2.id < db.nextId →
          ∃ row1 ∈ db.messages, row1.id = row2.id ∧
            row1.deliveredAt = row2.deliveredAt := hp.2.2
      refine ⟨fun h => ihn (hpn h), Nat.le_trans hpm ihm, ?_⟩
      intro row2 hr2 hlt
      obtain ⟨rowm, hrowm, hi1, hd1⟩ :=
        iho row2 hr2 (Nat.lt_of_lt_of_le hlt hpm)
      obtain ⟨row1, hrow1, hi0, hd0⟩ :=
        hpo rowm hrowm (by rw [hi1]; exact hlt)
      exact ⟨row1, hrow1, hi0.trans hi1, hd0.trans hd1⟩
    · rename_i db1 result1 err heq
      obtain ⟨ihn, ihm, iho⟩ := ih db1
        { result1 with errors := result1.errors ++
            ["Error processing contact " ++ num ++ ": " ++ err] }
      have hp := processContact_store includeMedia resolveMedia now ourNumbers
        db result num msgs
      rw [heq] at hp
      have hpn : (msgSids db).Nodup → (msgSids db1).Nodup := hp.1
      have hpm : db.nextId ≤ db1.nextId := hp.2.1
      have hpo : ∀ row2 ∈ db1.messages, row2.id < db.nextId →
          ∃ row1 ∈ db.messages, row1.id = row2.id ∧
            row1.deliveredAt = row2.deliveredAt := hp.2.2
      refine ⟨fun h => ihn (hpn h), Nat.le_trans hpm ihm, ?_⟩
      intro row2 hr2 hlt
      obtain ⟨rowm, hrowm, hi1, hd1⟩ :=
        iho row2 hr2 (Nat.lt_of_lt_of_le hlt hpm)
      obtain ⟨row1, hrow1, hi0, hd0⟩ :=
        hpo rowm hrowm (by rw [hi1]; exact hlt)
      exact ⟨row1, hrow1, hi0.trans hi1, hd0.trans hd1⟩

end BulkSync

/-! ### Claim C1 — SID uniqueness and the no-duplication count -/

/-- Claim C1: a sync run never duplicates a non-null SID — both engine
entry points preserve uniqueness of stored SIDs over any store (first and
third conjuncts; in both, the only message create is guarded by the
`messages_twilioSid_key` unique index) — and, syncing fresh records
(every merged SID absent locally, no truncation by the limit), the
single-conversation sync inserts exactly one Message per distinct SID:
the result counts `inserted = N, updated = 0, fetched = N` and the store
grows by exactly `N = |dedupeBySid (outbound ++ inbound)|` rows. -/
theorem claim_C1_theorem :
    (∀ (db : DB) (cid : String) (outbound inbound : List TwilioMsg)
      (limit : Nat) (includeMedia : Bool) (resolveMedia : String → List String)
      (now : Nat),
      dbWf db →
      (msgSids (HistorySync.syncConversationFromTwilio db cid outbound inbound
        limit includeMedia resolveMedia now).1).Nodup) ∧
    (∀ (db : DB) (cid : String) (outbound inbound : List TwilioMsg)
      (limit : Nat) (includeMedia : Bool) (resolveMedia : String → List String)
      (now : Nat),
      dbWf db →
      (db.conversations.find? (fun c => c.id = cid)).isSome →
      (∀ s ∈ sidsOf (mergeTwilioLists outbound inbound), dbFind db s = none) →
      (mergeTwilioLists outbound inbound).length ≤ limit →
      (HistorySync.syncConversationFromTwilio db cid outbound inbound limit
          includeMedia resolveMedia now).2 =
        .ok ⟨(dedupeBySid (outbound ++ inbound)).length, 0,
          (dedupeBySid (outbound ++ inbound)).length⟩ ∧
      (HistorySync.syncConversationFromTwilio db cid outbound inbound limit
          includeMedia resolveMedia now).1.messages.length =
        db.messages.length + (dedupeBySid (outbound ++ inbound)).length) ∧
    (∀ (db : DB) (fetchResult : Except String (List TwilioMsg))
      (includeMedia : Bool) (resolveMedia : String → List String)
      (now : Nat) (ourNumbers : List String),
      (msgSids db).Nodup →
      (msgSids (BulkSync.bulkSyncFromTwilio db fetchResult includeMedia
        resolveMedia now ourNumbers).1).Nodup) := by
  refine ⟨?_, ?_, ?_⟩
  · intro db cid outbound inbound limit includeMedia resolveMedia now hwf
    by_cases hconv : (db.conversations.find? (fun c => c.id = cid)).isSome
    · rw [HistorySync.syncConversationFromTwilio_eq db cid outbound inbound limit
        includeMedia resolveMedia now hconv]
      obtain ⟨db1, counts, heq, hwf1, -, -, -, -, hsids, -, -, -, -, -⟩ :=
        HistorySync.processRecords_sound ⟨cid, includeMedia, resolveMedia, now⟩
          (dbFind db) (slicedOf outbound inbound limit) db ⟨0, 0⟩ hwf
          (sidsOf_slicedOf_nodup outbound inbound limit) (fun s _ => rfl)
      rw [heq]
      have hmsg : msgSids (HistorySync.updateConversationSummary
          ⟨cid, includeMedia, resolveMedia, now⟩
          (slicedOf outbound inbound limit) db1) = msgSids db1 := by
        unfold msgSids
        rw [HistorySync.updateConversationSummary_messages]
      rw [hmsg]
      exact hwf1.1
    · have hnone := Option.not_isSome_iff_eq_none.mp hconv
      unfold HistorySync.syncConversationFromTwilio
      rw [hnone]
      exact hwf.1
  · intro db cid outbound inbound limit includeMedia resolveMedia now hwf hconv
      hfresh hlim
    have hsliced : slicedOf outbound inbound limit =
        mergeTwilioLists outbound inbound := slicedOf_eq_of_le hlim
    obtain ⟨db1, counts, heq, hwf1, -, -, -, -, hsids, hlen, hins, hupd, -, -⟩ :=
      HistorySync.processRecords_sound ⟨cid, includeMedia, resolveMedia, now⟩
        (dbFind db) (slicedOf outbound inbound limit) db ⟨0, 0⟩ hwf
        (sidsOf_slicedOf_nodup outbound inbound limit) (fun s _ => rfl)
    have hfresh2 : ∀ s ∈ sidsOf (slicedOf outbound inbound limit),
        dbFind db s = none := by
      rw [hsliced]
      exact hfresh
    have hfilter : (sidsOf (slicedOf outbound inbound limit)).filter
        (fun s => (dbFind db s).isNone) = sidsOf (slicedOf outbound inbound limit) := by
      apply List.filter_eq_self.mpr
      intro s hs
      rw [hfresh2 s hs]
      rfl
    have hNsids : (sidsOf (slicedOf outbound inbound limit)).length =
        (dedupeBySid (outbound ++ inbound)).length := by
      rw [hsliced]
      exact sidsOf_merge_length outbound inbound
    have hNlen : (slicedOf outbound inbound limit).length =
        (dedupeBySid (outbound ++ inbound)).length := by
      rw [hsliced]
      exact mergeTwilioLists_length outbound inbound
    rw [HistorySync.syncConversationFromTwilio_eq db cid outbound inbound limit
      includeMedia resolveMedia now hconv, heq]
    have h2 : counts.updated = 0 := hupd hfresh2
    have h1 : counts.inserted = (dedupeBySid (outbound ++ inbound)).length := by
      rw [hins, hfilter, hNsids]
      simp
    constructor
    · dsimp only
      rw [h1, h2, hNlen]
    · dsimp only
      have h3 : (HistorySync.updateConversationSummary
          ⟨cid, includeMedia, resolveMedia, now⟩
          (slicedOf outbound inbound limit) db1).messages = db1.messages :=
        HistorySync.updateConversationSummary_messages _ _ _
      rw [h3, hlen, hfilter, hNsids]
  · intro db fetchResult includeMedia resolveMedia now ourNumbers hnod
    cases fetchResult with
    | error e => exact hnod
    | ok allMessages =>
      exact (BulkSync.bulkLoop_store includeMedia resolveMedia now ourNumbers
        (BulkSync.messagesByContact ourNumbers allMessages) db
        ⟨0, 0, 0, 0, allMessages.length, []⟩).1 hnod

/-- Claim C1, witness: syncing three fresh records with two distinct SIDs
into a fresh store inserts exactly two Messages, and a bulk run over the
same records keeps the stored SIDs duplicate-free. -/
theorem claim_C1_witness :
    ((HistorySync.syncConversationFromTwilio exDb "conv1" [exRecSent]
        [exRecDelivered, exRecInbound] 200 true emptyResolver 999).2 =
      .ok ⟨(dedupeBySid ([exRecSent] ++ [exRecDelivered, exRecInbound])).length, 0,
        (dedupeBySid ([exRecSent] ++ [exRecDelivered, exRecInbound])).length⟩ ∧
    (HistorySync.syncConversationFromTwilio exDb "conv1" [exRecSent]
        [exRecDelivered, exRecInbound] 200 true emptyResolver 999).1.messages.length =
      exDb.messages.length +
        (dedupeBySid ([exRecSent] ++ [exRecDelivered, exRecInbound])).length) ∧
    (msgSids (BulkSync.bulkSyncFromTwilio exDb
        (.ok [exRecSent, exRecDelivered, exRecInbound]) true emptyResolver 999
        ["+15550001"]).1).Nodup :=
  ⟨claim_C1_theorem.2.1 exDb "conv1" [exRecSent] [exRecDelivered, exRecInbound]
    200 true emptyResolver 999 (by decide) (by decide) (by decide) (by decide),
   claim_C1_theorem.2.2 exDb (.ok [exRecSent, exRecDelivered, exRecInbound])
    true emptyResolver 999 ["+15550001"] (by decide)⟩

/-! ### Claim C2 — status regression and timestamp monotonicity -/

/-- Claim C2, counterexample: syncing a stale `sent` record for a Message
already stored as DELIVERED reverts the stored status to SENT (the
`deliveredAt` timestamp survives, but the status does regress). -/
theorem claim_C2_counterexample :
    exDbDelivered.messages.map Message.status = [.DELIVERED] ∧
    (HistorySync.syncConversationFromTwilio exDbDelivered "conv1" [exRecSent] []
        200 true emptyResolver 999).1.messages.map Message.status = [.SENT] ∧
    (HistorySync.syncConversationFromTwilio exDbDelivered "conv1" [exRecSent] []
        200 true emptyResolver 999).1.messages.map Message.deliveredAt =
      [some 400] := by
  decide

/-- Claim C2 (amended): the stored status always follows the last observed
record — a stale `sent` report does move a DELIVERED message back to SENT,
leaving `deliveredAt` untouched, in the single-conversation pass (second
conjunct) and in the bulk pass (fourth conjunct) — while a non-null
`deliveredAt` is never cleared or overwritten by any sync pass: neither by
a single-conversation run (first conjunct) nor by a bulk run (third
conjunct). -/
theorem claim_C2_theorem :
    (∀ (db : DB) (cid : String) (outbound inbound : List TwilioMsg)
      (limit : Nat) (includeMedia : Bool) (resolveMedia : String → List String)
      (now : Nat) (d : Nat) (row : Message),
      dbWf db → row ∈ db.messages → row.deliveredAt = some d →
      ∀ row2 ∈ (HistorySync.syncConversationFromTwilio db cid outbound inbound
        limit includeMedia resolveMedia now).1.messages,
          row2.id = row.id → row2.deliveredAt = some d) ∧
    (∀ (ctx : HistorySync.SyncContext) (db : DB) (counts : SyncCounts)
      (m : TwilioMsg) (s : String) (current : Message),
      dbWf db → goodSid m = some s → dbFind db s = some current →
      current.status = .DELIVERED → recStatus m = .SENT →
      ∃ db2, HistorySync.processRecord ctx (dbFind db) db counts m =
          (db2, ⟨counts.inserted, counts.updated + 1⟩, none) ∧
        ∃ row2, dbFind db2 s = some row2 ∧ row2.status = .SENT ∧
          row2.deliveredAt = current.deliveredAt) ∧
    (∀ (db : DB) (fetchResult : Except String (List TwilioMsg))
      (includeMedia : Bool) (resolveMedia : String → List String)
      (now : Nat) (ourNumbers : List String) (d : Nat) (row : Message),
      dbWf db → row ∈ db.messages → row.deliveredAt = some d →
      ∀ row2 ∈ (BulkSync.bulkSyncFromTwilio db fetchResult includeMedia
        resolveMedia now ourNumbers).1.messages,
          row2.id = row.id → row2.deliveredAt = some d) ∧
    (∀ (includeMedia : Bool) (resolveMedia : String → List String)
      (now : Nat) (ourNumbers : List String) (cid : String) (T : ChannelType)
      (snap : String → Option Message) (db : DB)
      (result : BulkSync.BulkSyncResult) (lb : String) (la : Nat)
      (m : TwilioMsg) (sid : String) (existing : Message),
      goodSid m = some sid → snap sid = some existing →
      existing.status = .DELIVERED → recStatus m = .SENT →
      ∀ row ∈ db.messages, row.id = existing.id →
        ∃ row2 ∈ (BulkSync.processContactMessages includeMedia resolveMedia
            now ourNumbers cid T snap db result lb la [m]).1.messages,
          row2.id = row.id ∧ row2.status = .SENT ∧
            row2.deliveredAt = row.deliveredAt) := by
  refine ⟨?_, ?_, ?_, ?_⟩
  · intro db cid outbound inbound limit includeMedia resolveMedia now d row
      hwf hrow hd row2 hrow2 hid
    by_cases hconv : (db.conversations.find? (fun c => c.id = cid)).isSome
    · rw [HistorySync.syncConversationFromTwilio_eq db cid outbound inbound limit
        includeMedia resolveMedia now hconv] at hrow2
      obtain ⟨db1, counts, heq, -, -, -, -, -, -, -, -, -, hdel, -⟩ :=
        HistorySync.processRecords_sound ⟨cid, includeMedia, resolveMedia, now⟩
          (dbFind db) (slicedOf outbound inbound limit) db ⟨0, 0⟩ hwf
          (sidsOf_slicedOf_nodup outbound inbound limit) (fun s _ => rfl)
      rw [heq] at hrow2
      dsimp only at hrow2
      rw [HistorySync.updateConversationSummary_messages] at hrow2
      exact hdel d row hrow hd row2 hrow2 hid
    · have hnone := Option.not_isSome_iff_eq_none.mp hconv
      unfold HistorySync.syncConversationFromTwilio at hrow2
      rw [hnone] at hrow2
      rw [row_eq_of_id_eq hwf.2.1 hrow2 hrow hid]
      exact hd
  · intro ctx db counts m s current hwf hgs hfind hdel hsent
    have hnskip : ¬ skipCond ctx.includeMedia ctx.resolveMedia current s m := by
      intro hsk
      rw [hsk.1, hsent] at hdel
      cases hdel
    have heq := HistorySync.processRecord_write ctx (dbFind db) db counts hgs
      hfind hnskip
    have hM : (((fun db1 =>
        if (current.status ≠ recStatus m : Bool) then
          { db1 with statusEvents := db1.statusEvents ++
              [⟨current.id, recStatus m, recUpdatedAt ctx.now m⟩] }
        else db1)
      (dbUpdateMessage db current.id
        (HistorySync.updatePatch ctx current s m))) : DB).messages =
        (dbUpdateMessage db current.id
          (HistorySync.updatePatch ctx current s m)).messages := by
      split <;> rfl
    have hN : (((fun db1 =>
        if (current.status ≠ recStatus m : Bool) then
          { db1 with statusEvents := db1.statusEvents ++
              [⟨current.id, recStatus m, recUpdatedAt ctx.now m⟩] }
        else db1)
      (dbUpdateMessage db current.id
        (HistorySync.updatePatch ctx current s m))) : DB).nextId = db.nextId := by
      split <;> rfl
    obtain ⟨-, -, hfound, -, -, -⟩ := HistorySync.update_post ctx hM hN hwf hfind
    refine ⟨_, heq, HistorySync.updatePatch ctx current s m current, hfound, ?_, ?_⟩
    · rw [HistorySync.updatePatch_status, hsent]
    · show (HistorySync.updatePatch ctx current s m current).deliveredAt =
        current.deliveredAt
      unfold HistorySync.updatePatch
      rw [hsent]
      rfl
  · intro db fetchResult includeMedia resolveMedia now ourNumbers d row hwf
      hrow hd row2 hr2 hid
    cases fetchResult with
    | error e =>
      have hr2b : row2 ∈ db.messages := hr2
      rw [row_eq_of_id_eq hwf.2.1 hr2b hrow hid]
      exact hd
    | ok allMessages =>
      have hr2b : row2 ∈ ((BulkSync.bulkLoop includeMedia resolveMedia now
          ourNumbers db ⟨0, 0, 0, 0, allMessages.length, []⟩
          (BulkSync.messagesByContact ourNumbers allMessages)).1).messages := hr2
      obtain ⟨row1, hrow1, hi1, hd1⟩ :=
        (BulkSync.bulkLoop_store includeMedia resolveMedia now ourNumbers
          (BulkSync.messagesByContact ourNumbers allMessages) db
          ⟨0, 0, 0, 0, allMessages.length, []⟩).2.2 row2 hr2b
          (by rw [hid]; exact hwf.2.2 row hrow)
      have hre : row1 = row := row_eq_of_id_eq hwf.2.1 hrow1 hrow
        (hi1.trans hid)
      rw [← hd1, hre]
      exact hd
  · intro includeMedia resolveMedia now ourNumbers cid T snap db result lb la
      m sid existing hgs hsnap hdel hsent row hrow hid
    have hne : existing.status ≠ recStatus m := by
      rw [hdel, hsent]
      decide
    simp only [BulkSync.processContactMessages, hgs, hsnap]
    rw [if_pos hne]
    simp only [BulkSync.processContactMessages]
    refine ⟨{ row with
        status := recStatus m
        errorCode := m.errorCode.map toString
        errorMessage := jsOrUndefined m.errorMessage
        updatedAt := recUpdatedAt now m }, ?_, rfl, ?_, rfl⟩
    · have hmem0 := List.mem_map_of_mem (fun mm => if mm.id = existing.id then
          { mm with
              status := recStatus m
              errorCode := m.errorCode.map toString
              errorMessage := jsOrUndefined m.errorMessage
              updatedAt := recUpdatedAt now m } else mm) hrow
      dsimp only at hmem0
      rw [if_pos hid] at hmem0
      exact hmem0
    · show recStatus m = MessageStatus.SENT
      exact hsent

/-- Claim C2, witness: the status-follows-last-observation clause applied
to the DELIVERED message `SM1` observed as `sent`, in the
single-conversation pass and in the bulk record loop. -/
theorem claim_C2_witness :
    (∃ db2, HistorySync.processRecord exCtx (dbFind exDbDelivered) exDbDelivered
        ⟨0, 0⟩ exRecSent = (db2, ⟨0, 1⟩, none) ∧
      ∃ row2, dbFind db2 "SM1" = some row2 ∧ row2.status = .SENT ∧
        row2.deliveredAt = exDelRow.deliveredAt) ∧
    (∃ row2 ∈ (BulkSync.processContactMessages true emptyResolver 999
        ["+15550001"] "conv1" .SMS (dbFind exDbDelivered) exDbDelivered
        ⟨0, 0, 0, 0, 1, []⟩ "" 0 [exRecSent]).1.messages,
      row2.id = exDelRow.id ∧ row2.status = .SENT ∧
        row2.deliveredAt = exDelRow.deliveredAt) :=
  ⟨claim_C2_theorem.2.1 exCtx exDbDelivered ⟨0, 0⟩ exRecSent "SM1" exDelRow
    (by decide) (by decide) (by decide) (by decide) (by decide),
   claim_C2_theorem.2.2.2 true emptyResolver 999 ["+15550001"] "conv1" .SMS
    (dbFind exDbDelivered) exDbDelivered ⟨0, 0, 0, 0, 1, []⟩ "" 0 exRecSent
    "SM1" exDelRow (by decide) (by decide) (by decide) (by decide) exDelRow
    (by decide) rfl⟩

/-! ### Claim C3 — idempotency of a repeated sync -/

/-- Claim C3: a record whose mapped status equals the stored status and
whose resolved media length equals the stored media length is skipped with
no write of any kind (first conjunct); and a second sync run immediately
after a completed run, with the provider returning the same records and
the media resolver unchanged, reports `inserted = 0, updated = 0` (second
conjunct). -/
theorem claim_C3_theorem :
    (∀ (ctx : HistorySync.SyncContext) (snap : String → Option Message)
      (db : DB) (counts : SyncCounts) (m : TwilioMsg) (s : String)
      (row : Message),
      goodSid m = some s → snap s = some row →
      row.status = recStatus m →
      (recMedia ctx.includeMedia ctx.resolveMedia s m).length =
        row.mediaUrls.length →
      HistorySync.processRecord ctx snap db counts m = (db, counts, none)) ∧
    (∀ (db : DB) (cid : String) (outbound inbound : List TwilioMsg)
      (limit : Nat) (includeMedia : Bool) (resolveMedia : String → List String)
      (now : Nat) (db1 : DB) (r1 : HistorySync.SyncConversationFromTwilioResult),
      dbWf db →
      HistorySync.syncConversationFromTwilio db cid outbound inbound limit
        includeMedia resolveMedia now = (db1, .ok r1) →
      ∃ db2, HistorySync.syncConversationFromTwilio db1 cid outbound inbound
        limit includeMedia resolveMedia now =
          (db2, .ok ⟨0, 0, r1.twilioFetched⟩)) := by
  constructor
  · intro ctx snap db counts m s row hgs hsnap hstatus hmedia
    apply HistorySync.processRecord_skip ctx snap db counts hgs hsnap
    refine ⟨hstatus, ?_⟩
    rintro ⟨-, hb, hc⟩
    rw [hmedia, hb] at hc
    exact absurd hc (lt_irrefl _)
  · intro db cid outbound inbound limit includeMedia resolveMedia now db1 r1
      hwf hrun
    by_cases hconv : (db.conversations.find? (fun c => c.id = cid)).isSome
    · rw [HistorySync.syncConversationFromTwilio_eq db cid outbound inbound limit
        includeMedia resolveMedia now hconv] at hrun
      obtain ⟨dbA, counts, heqA, hwfA, -, hconvA, -, hpostA, -, -, -, -, -, -⟩ :=
        HistorySync.processRecords_sound ⟨cid, includeMedia, resolveMedia, now⟩
          (dbFind db) (slicedOf outbound inbound limit) db ⟨0, 0⟩ hwf
          (sidsOf_slicedOf_nodup outbound inbound limit) (fun s _ => rfl)
      rw [heqA] at hrun
      dsimp only at hrun
      rw [Prod.mk.injEq] at hrun
      obtain ⟨hdb1, hok⟩ := hrun
      have hr1 : r1 = ⟨counts.inserted, counts.updated,
          (slicedOf outbound inbound limit).length⟩ := by
        cases hok
        rfl
      have hdb1msgs : db1.messages = dbA.messages := by
        rw [← hdb1]
        exact HistorySync.updateConversationSummary_messages _ _ _
      have hconv1 : (db1.conversations.find? (fun c => c.id = cid)).isSome := by
        rw [← hdb1]
        rw [HistorySync.updateConversationSummary_convFind_isSome]
        rw [hconvA]
        exact hconv
      have hall : ∀ m ∈ slicedOf outbound inbound limit, ∀ s,
          goodSid m = some s → ∃ row, dbFind db1 s = some row ∧
            skipCond includeMedia resolveMedia row s m := by
        intro m hm s hs
        obtain ⟨row, hrow, hsk⟩ := hpostA m hm s hs
        refine ⟨row, ?_, hsk⟩
        rw [dbFind_congr hdb1msgs s]
        exact hrow
      have hskiprun := HistorySync.processRecords_skips
        ⟨cid, includeMedia, resolveMedia, now⟩ (dbFind db1)
        (slicedOf outbound inbound limit) db1 ⟨0, 0⟩ hall
      refine ⟨HistorySync.updateConversationSummary
        ⟨cid, includeMedia, resolveMedia, now⟩
        (slicedOf outbound inbound limit) db1, ?_⟩
      rw [HistorySync.syncConversationFromTwilio_eq db1 cid outbound inbound limit
        includeMedia resolveMedia now hconv1, hskiprun]
      dsimp only
      rw [hr1]
    · exfalso
      have hnone := Option.not_isSome_iff_eq_none.mp hconv
      unfold HistorySync.syncConversationFromTwilio at hrun
      rw [hnone] at hrun
      rw [Prod.mk.injEq] at hrun
      exact Except.noConfusion hrun.2

/-- Claim C3, witness: the second run over the `SM1`/`SM2` scenario
reports zero inserts and zero updates. -/
theorem claim_C3_witness :
    ∃ db2, HistorySync.syncConversationFromTwilio exRun1.1 "conv1" [exRecSent]
        [exRecInbound] 200 true emptyResolver 999 = (db2, .ok ⟨0, 0, 2⟩) :=
  claim_C3_theorem.2 exDb "conv1" [exRecSent] [exRecInbound] 200 true
    emptyResolver 999 exRun1.1 ⟨2, 0, 2⟩ (by decide) (by rfl)

/-! ### Claim C6 — unique-constraint violations during upsert -/

/-- Claim C6, counterexample: when another writer has inserted SID `SM9`
between the `findMany` snapshot and the create (snapshot misses it, store
has it), the create's unique-index violation is returned as a hard error —
the engine does not re-read and use the existing row. -/
theorem claim_C6_counterexample :
    HistorySync.processRecord exCtx (fun _ => none) exDbOther ⟨0, 0⟩ exRecTaken =
      (exDbOther, ⟨0, 0⟩, some (.uniqueSidViolation "SM9")) := by
  decide

/-- Claim C6 (amended): an identity-constraint violation raised by a
message create racing an existing SID is not caught anywhere in the
engine: the single-conversation upsert step returns it (first conjunct)
and the loop aborts there, leaving the remaining records unprocessed
(second conjunct); in bulk sync the per-record loop likewise aborts the
counterparty with the violation's error message (third conjunct), which
the per-counterparty catch then records (claim C7).  No path re-reads the
existing row. -/
theorem claim_C6_theorem :
    (∀ (ctx : HistorySync.SyncContext) (snap : String → Option Message)
      (db : DB) (counts : SyncCounts) (m : TwilioMsg) (s : String),
      goodSid m = some s → snap s = none → sidTaken db s = true →
      HistorySync.processRecord ctx snap db counts m =
        (db, counts, some (.uniqueSidViolation s))) ∧
    (∀ (ctx : HistorySync.SyncContext) (snap : String → Option Message)
      (db : DB) (counts : SyncCounts) (m : TwilioMsg) (s : String)
      (rest : List TwilioMsg),
      goodSid m = some s → snap s = none → sidTaken db s = true →
      HistorySync.processRecords ctx snap db counts (m :: rest) =
        (db, counts, some (.uniqueSidViolation s))) ∧
    (∀ (includeMedia : Bool) (resolveMedia : String → List String) (now : Nat)
      (ourNumbers : List String) (conversationId : String)
      (channelType : ChannelType) (snap : String → Option Message) (db : DB)
      (result : BulkSync.BulkSyncResult) (lastBody : String) (lastAt : Nat)
      (m : TwilioMsg) (s : String) (rest : List TwilioMsg),
      goodSid m = some s → snap s = none → sidTaken db s = true →
      ∃ lb1 la1, BulkSync.processContactMessages includeMedia resolveMedia now
        ourNumbers conversationId channelType snap db result lastBody lastAt
        (m :: rest) =
          (db, result, lb1, la1, some (BulkSync.uniqueSidMessage s))) := by
  refine ⟨?_, ?_, ?_⟩
  · intro ctx snap db counts m s hgs hsnap htaken
    exact HistorySync.processRecord_conflict ctx snap db counts hgs hsnap htaken
  · intro ctx snap db counts m s rest hgs hsnap htaken
    simp only [HistorySync.processRecords,
      HistorySync.processRecord_conflict ctx snap db counts hgs hsnap htaken]
  · intro includeMedia resolveMedia now ourNumbers conversationId channelType
      snap db result lastBody lastAt m s rest hgs hsnap htaken
    refine ⟨if recCreatedAt now m > lastAt then
        (let body := jsOr m.body ""
         if body = "" then
           (if (recMedia includeMedia resolveMedia s m).length > 0 then "[Media]"
            else "")
         else body)
      else lastBody,
      if recCreatedAt now m > lastAt then recCreatedAt now m else lastAt, ?_⟩
    simp only [BulkSync.processContactMessages, hgs, hsnap]
    rw [if_pos htaken]

/-- Claim C6, witness: the bulk-sync loop clause applied to the taken SID
`SM9`. -/
theorem claim_C6_witness :
    ∃ lb1 la1, BulkSync.processContactMessages true emptyResolver 999
      ["+15550001"] "conv1" .SMS (fun _ => none) exDbOther ⟨0, 0, 0, 0, 2, []⟩
      "" 0 (exRecTaken :: [exRecInbound]) =
        (exDbOther, ⟨0, 0, 0, 0, 2, []⟩, lb1, la1,
          some (BulkSync.uniqueSidMessage "SM9")) :=
  claim_C6_theorem.2.2 true emptyResolver 999 ["+15550001"] "conv1" .SMS
    (fun _ => none) exDbOther ⟨0, 0, 0, 0, 2, []⟩ "" 0 exRecTaken "SM9"
    [exRecInbound] (by decide) rfl (by decide)

/-! ### Claim C7 — bulk-sync failure isolation -/

namespace BulkSync

/-- The per-counterparty record loop never touches the error list or the
fetch total. -/
theorem processContactMessages_keeps (includeMedia : Bool)
    (resolveMedia : String → List String) (now : Nat) (ourNumbers : List String)
    (conversationId : String) (channelType : ChannelType)
    (snap : String → Option Message) :
    ∀ (msgs : List TwilioMsg) (db : DB) (result : BulkSyncResult)
      (lb : String) (la : Nat),
      ((processContactMessages includeMedia resolveMedia now ourNumbers
        conversationId channelType snap db result lb la msgs).2.1).errors =
          result.errors ∧
      ((processContactMessages includeMedia resolveMedia now ourNumbers
        conversationId channelType snap db result lb la msgs).2.1).totalFetched =
          result.totalFetched := by
  intro msgs
  induction msgs with
  | nil => intro db result lb la; exact ⟨rfl, rfl⟩
  | cons hd tl ih =>
    intro db result lb la
    simp only [processContactMessages]
    split
    · exact ih _ _ _ _
    · split
      · split
        · exact ⟨rfl, rfl⟩
        · exact ih _ _ _ _
      · split
        · exact ih _ _ _ _
        · exact ih _ _ _ _

/-- The per-counterparty record loop never touches the error list or the
fetch total — implication form, for use under a `split` equation. -/
theorem processContactMessages_keeps2 {includeMedia : Bool}
    {resolveMedia : String → List String} {now : Nat} {ourNumbers : List String}
    {conversationId : String} {channelType : ChannelType}
    {snap : String → Option Message} {db : DB} {result : BulkSyncResult}
    {lb : String} {la : Nat} {msgs : List TwilioMsg}
    {out : DB × BulkSyncResult × String × Nat × Option String}
    (h : processContactMessages includeMedia resolveMedia now ourNumbers
      conversationId channelType snap db result lb la msgs = out) :
    (out.2.1).errors = result.errors ∧
    (out.2.1).totalFetched = result.totalFetched := by
  have hk := processContactMessages_keeps includeMedia resolveMedia now
    ourNumbers conversationId channelType snap msgs db result lb la
  rw [h] at hk
  exact hk

/-- Find-or-create of the channel+contact never touches the error list or
the fetch total. -/
theorem resolveChannelContact_keeps (db : DB) (result : BulkSyncResult)
    (channelType : ChannelType) (contactNumber : String) :
    ((resolveChannelContact db result channelType contactNumber).2.2).errors =
      result.errors ∧
    ((resolveChannelContact db result channelType contactNumber).2.2).totalFetched =
      result.totalFetched := by
  unfold resolveChannelContact
  split <;> exact ⟨rfl, rfl⟩

/-- Find-or-create of the conversation never touches the error list or the
fetch total. -/
theorem resolveConversation_keeps (db1 : DB) (contactId : String)
    (channelType : ChannelType) (result1 : BulkSyncResult) :
    ((resolveConversation db1 contactId channelType result1).2.2).errors =
      result1.errors ∧
    ((resolveConversation db1 contactId channelType result1).2.2).totalFetched =
      result1.totalFetched := by
  unfold resolveConversation
  split <;> exact ⟨rfl, rfl⟩

/-- One counterparty's processing never touches the error list or the
fetch total (those are only written by the caller's catch). -/
theorem processContact_keeps (includeMedia : Bool)
    (resolveMedia : String → List String) (now : Nat) (ourNumbers : List String)
    (db : DB) (result : BulkSyncResult) (contactNumber : String)
    (messages : List TwilioMsg) :
    ((processContact includeMedia resolveMedia now ourNumbers db result
      contactNumber messages).2.1).errors = result.errors ∧
    ((processContact includeMedia resolveMedia now ourNumbers db result
      contactNumber messages).2.1).totalFetched = result.totalFetched := by
  unfold processContact
  split
  · exact ⟨rfl, rfl⟩
  · dsimp only
    split
    · rename_i db3 result3 x1 x2 e heq
      obtain ⟨herr, htot⟩ := processContactMessages_keeps2 heq
      refine ⟨?_, ?_⟩
      · show result3.errors = result.errors
        rw [herr, (resolveConversation_keeps _ _ _ _).1,
          (resolveChannelContact_keeps _ _ _ _).1]
      · show result3.totalFetched = result.totalFetched
        rw [htot, (resolveConversation_keeps _ _ _ _).2,
          (resolveChannelContact_keeps _ _ _ _).2]
    · rename_i db3 result3 lb la heq
      obtain ⟨herr, htot⟩ := processContactMessages_keeps2 heq
      refine ⟨?_, ?_⟩
      · show result3.errors = result.errors
        rw [herr, (resolveConversation_keeps _ _ _ _).1,
          (resolveChannelContact_keeps _ _ _ _).1]
      · show result3.totalFetched = result.totalFetched
        rw [htot, (resolveConversation_keeps _ _ _ _).2,
          (resolveChannelContact_keeps _ _ _ _).2]

/-- The counterparty loop: the fetch total is never changed, and every
error in the final list either was there at entry or is a formatted
per-counterparty catch message. -/
theorem bulkLoop_sound (includeMedia : Bool)
    (resolveMedia : String → List String) (now : Nat)
    (ourNumbers : List String) :
    ∀ (groups : List (String × List TwilioMsg)) (db : DB)
      (result : BulkSyncResult),
      ((bulkLoop includeMedia resolveMedia now ourNumbers db result
        groups).2).totalFetched = result.totalFetched ∧
      ∀ e ∈ ((bulkLoop includeMedia resolveMedia now ourNumbers db result
          groups).2).errors,
        e ∈ result.errors ∨ ∃ num msg2,
          e = "Error processing contact " ++ num ++ ": " ++ msg2 := by
  intro groups
  induction groups with
  | nil => intro db result; exact ⟨rfl, fun e he => Or.inl he⟩
  | cons hd tl ih =>
    intro db result
    obtain ⟨num, msgs⟩ := hd
    simp only [bulkLoop]
    split
    · rename_i db1 result1 heq
      obtain ⟨ht, he⟩ := ih db1 result1
      have hk := processContact_keeps includeMedia resolveMedia now ourNumbers
        db result num msgs
      rw [heq] at hk
      have hk1 : result1.errors = result.errors := hk.1
      have hk2 : result1.totalFetched = result.totalFetched := hk.2
      refine ⟨?_, ?_⟩
      · rw [ht]; exact hk2
      · intro e hme
        rcases he e hme with h | h
        · rw [hk1] at h; exact Or.inl h
        · exact Or.inr h
    · rename_i db1 result1 err heq
      obtain ⟨ht, he⟩ := ih db1
        { result1 with errors := result1.errors ++
            ["Error processing contact " ++ num ++ ": " ++ err] }
      have hk := processContact_keeps includeMedia resolveMedia now ourNumbers
        db result num msgs
      rw [heq] at hk
      have hk1 : result1.errors = result.errors := hk.1
      have hk2 : result1.totalFetched = result.totalFetched := hk.2
      refine ⟨?_, ?_⟩
      · rw [ht]; exact hk2
      · intro e hme
        rcases he e hme with h | h
        · simp only [List.mem_append, List.mem_singleton] at h
          rcases h with h | h
          · rw [hk1] at h; exact Or.inl h
          · exact Or.inr ⟨num, err, h⟩
        · exact Or.inr h

end BulkSync

/-! ### Claim C7 — bulk-sync failure isolation and top-level throwing -/

/-- Claim C7: (i) when the single top-level fetch succeeds,
`bulkSyncFromTwilio` returns `.ok` with the aggregate counts — it never
throws — with `totalFetched` the fetched count and every recorded error a
formatted per-counterparty catch message; (ii) when processing one
counterparty throws, the error is formatted, appended to the result's
error list, and the loop continues with the remaining counterparties;
(iii) `bulkSyncFromTwilio` propagates exactly a top-level fetch failure. -/
theorem claim_C7_theorem :
    (∀ (includeMedia : Bool) (resolveMedia : String → List String) (now : Nat)
        (ourNumbers : List String) (db : DB) (allMessages : List TwilioMsg),
      ∃ r : BulkSync.BulkSyncResult,
        (BulkSync.bulkSyncFromTwilio db (.ok allMessages) includeMedia
          resolveMedia now ourNumbers).2 = .ok r ∧
        r.totalFetched = allMessages.length ∧
        ∀ e ∈ r.errors, ∃ num msg2,
          e = "Error processing contact " ++ num ++ ": " ++ msg2) ∧
    (∀ (includeMedia : Bool) (resolveMedia : String → List String) (now : Nat)
        (ourNumbers : List String) (db : DB) (result : BulkSync.BulkSyncResult)
        (num : String) (msgs : List TwilioMsg)
        (rest : List (String × List TwilioMsg)) (db1 : DB)
        (result1 : BulkSync.BulkSyncResult) (e : String),
      BulkSync.processContact includeMedia resolveMedia now ourNumbers db
        result num msgs = (db1, result1, some e) →
      BulkSync.bulkLoop includeMedia resolveMedia now ourNumbers db result
        ((num, msgs) :: rest) =
        BulkSync.bulkLoop includeMedia resolveMedia now ourNumbers db1
          { result1 with errors := result1.errors ++
              ["Error processing contact " ++ num ++ ": " ++ e] } rest) ∧
    (∀ (includeMedia : Bool) (resolveMedia : String → List String) (now : Nat)
        (ourNumbers : List String) (db : DB) (e : String),
      BulkSync.bulkSyncFromTwilio db (.error e) includeMedia resolveMedia now
        ourNumbers = (db, .error e)) := by
  refine ⟨?_, ?_, ?_⟩
  · intro includeMedia resolveMedia now ourNumbers db allMessages
    obtain ⟨ht, he⟩ := BulkSync.bulkLoop_sound includeMedia resolveMedia now
      ourNumbers (BulkSync.messagesByContact ourNumbers allMessages) db
      ⟨0, 0, 0, 0, allMessages.length, []⟩
    refine ⟨(BulkSync.bulkLoop includeMedia resolveMedia now ourNumbers db
      ⟨0, 0, 0, 0, allMessages.length, []⟩
      (BulkSync.messagesByContact ourNumbers allMessages)).2, rfl, ht, ?_⟩
    intro e hme
    rcases he e hme with h | h
    · exact absurd h (List.not_mem_nil e)
    · exact h
  · intro includeMedia resolveMedia now ourNumbers db result num msgs rest
      db1 result1 e hpc
    simp only [BulkSync.bulkLoop, hpc]
  · intro includeMedia resolveMedia now ourNumbers db e
    rfl

namespace BulkSync

/-- Rows of a patched message table descend from rows of the original
table with the same id and channel type, provided the patch preserves
both. -/
theorem dbUpdateMessage_row_origin {db : DB} {eid : Nat}
    {patch : Message → Message} {row : Message}
    (hrow : row ∈ (dbUpdateMessage db eid patch).messages)
    (hpid : ∀ m, (patch m).id = m.id)
    (hpct : ∀ m, (patch m).channelType = m.channelType) :
    ∃ old ∈ db.messages, old.id = row.id ∧ old.channelType = row.channelType := by
  simp only [dbUpdateMessage, List.mem_map] at hrow
  obtain ⟨old, hold, heq⟩ := hrow
  refine ⟨old, hold, ?_, ?_⟩
  · rw [← heq]
    by_cases h : old.id = eid
    · rw [if_pos h, hpid]
    · rw [if_neg h]
  · rw [← heq]
    by_cases h : old.id = eid
    · rw [if_pos h, hpct]
    · rw [if_neg h]

/-- Patching a conversation in a way that keeps `channelType` keeps the
store's conversation channel-type column. -/
theorem dbUpdateConversation_channelTypes (db : DB) (cid : String)
    (patch : Conversation → Conversation)
    (hp : ∀ c, (patch c).channelType = c.channelType) :
    (dbUpdateConversation db cid patch).conversations.map
        Conversation.channelType =
      db.conversations.map Conversation.channelType := by
  unfold dbUpdateConversation
  dsimp only
  rw [List.map_map]
  apply List.map_congr_left
  intro c _
  by_cases h : c.id = cid
  · simp only [Function.comp, if_pos h, hp]
  · simp only [Function.comp, if_neg h]

/-- The per-counterparty record loop never touches channels or
conversations, and every row of the resulting message table either keeps
the id and channel type of a pre-existing row or carries the loop's fixed
channel type `T`. -/
theorem processContactMessages_channelType (includeMedia : Bool)
    (resolveMedia : String → List String) (now : Nat) (ourNumbers : List String)
    (conversationId : String) (T : ChannelType) (snap : String → Option Message) :
    ∀ (msgs : List TwilioMsg) (db : DB) (result : BulkSyncResult)
      (lb : String) (la : Nat),
      ((processContactMessages includeMedia resolveMedia now ourNumbers
        conversationId T snap db result lb la msgs).1).channels = db.channels ∧
      ((processContactMessages includeMedia resolveMedia now ourNumbers
        conversationId T snap db result lb la msgs).1).conversations =
          db.conversations ∧
      ∀ row ∈ ((processContactMessages includeMedia resolveMedia now ourNumbers
          conversationId T snap db result lb la msgs).1).messages,
        (∃ old ∈ db.messages,
          old.id = row.id ∧ old.channelType = row.channelType) ∨
        row.channelType = T := by
  intro msgs
  induction msgs with
  | nil =>
    intro db result lb la
    exact ⟨rfl, rfl, fun row hrow => Or.inl ⟨row, hrow, rfl, rfl⟩⟩
  | cons hd tl ih =>
    intro db result lb la
    simp only [processContactMessages]
    split
    · exact ih _ _ _ _
    · rename_i sid hsid
      split
      · split
        · exact ⟨rfl, rfl, fun row hrow => Or.inl ⟨row, hrow, rfl, rfl⟩⟩
        · refine ⟨(ih _ _ _ _).1, (ih _ _ _ _).2.1, ?_⟩
          intro row hrow
          rcases (ih _ _ _ _).2.2 row hrow with ⟨old, hold, hi, hc⟩ | h
          · have hold2 : old ∈ db.messages ++
                [createdRow includeMedia resolveMedia now ourNumbers
                  conversationId T db.nextId sid hd] := hold
            rcases List.mem_append.mp hold2 with h2 | h2
            · exact Or.inl ⟨old, h2, hi, hc⟩
            · have h3 := List.mem_singleton.mp h2
              refine Or.inr ?_
              rw [← hc, h3]
              rfl
          · exact Or.inr h
      · rename_i existing hex
        split
        · refine ⟨(ih _ _ _ _).1, (ih _ _ _ _).2.1, ?_⟩
          intro row hrow
          rcases (ih _ _ _ _).2.2 row hrow with ⟨old2, hold2, hi, hc⟩ | h
          · obtain ⟨old, hold, hi2, hc2⟩ :=
              dbUpdateMessage_row_origin hold2 (fun m => rfl) (fun m => rfl)
            exact Or.inl ⟨old, hold, hi2.trans hi, hc2.trans hc⟩
          · exact Or.inr h
        · exact ih _ _ _ _

/-- Implication form of `processContactMessages_channelType`, for use
under a `split` equation. -/
theorem processContactMessages_channelType2 {includeMedia : Bool}
    {resolveMedia : String → List String} {now : Nat} {ourNumbers : List String}
    {conversationId : String} {T : ChannelType} {snap : String → Option Message}
    {db : DB} {result : BulkSyncResult} {lb : String} {la : Nat}
    {msgs : List TwilioMsg}
    {out : DB × BulkSyncResult × String × Nat × Option String}
    (h : processContactMessages includeMedia resolveMedia now ourNumbers
      conversationId T snap db result lb la msgs = out) :
    (out.1).channels = db.channels ∧
    (out.1).conversations = db.conversations ∧
    ∀ row ∈ (out.1).messages,
      (∃ old ∈ db.messages,
        old.id = row.id ∧ old.channelType = row.channelType) ∨
      row.channelType = T := by
  have hk := processContactMessages_channelType includeMedia resolveMedia now
    ourNumbers conversationId T snap msgs db result lb la
  rw [h] at hk
  exact hk

end BulkSync

/-! ### Claim C10 — the group channel type comes from the first record -/

/-- Claim C10: for a counterparty group, the channel type inferred from the
group's first fetched record is the one stored on every Message row this
counterparty's processing inserts (rows with ids at or above the entry
`nextId`), and it is the type of the only channel row and the only
conversation row the processing can append — no per-record
re-classification happens anywhere. -/
theorem claim_C10_theorem (includeMedia : Bool)
    (resolveMedia : String → List String) (now : Nat) (ourNumbers : List String)
    (db : DB) (result : BulkSync.BulkSyncResult) (num : String)
    (firstMsg : TwilioMsg) (rest : List TwilioMsg)
    (hid : ∀ m ∈ db.messages, m.id < db.nextId) :
    (∀ row ∈ (BulkSync.processContact includeMedia resolveMedia now ourNumbers
        db result num (firstMsg :: rest)).1.messages,
      db.nextId ≤ row.id →
      row.channelType = inferChannelTypeFromTwilioMessage firstMsg) ∧
    ((BulkSync.processContact includeMedia resolveMedia now ourNumbers
        db result num (firstMsg :: rest)).1.channels.map Channel.type =
        db.channels.map Channel.type ∨
      (BulkSync.processContact includeMedia resolveMedia now ourNumbers
        db result num (firstMsg :: rest)).1.channels.map Channel.type =
        db.channels.map Channel.type ++
          [inferChannelTypeFromTwilioMessage firstMsg]) ∧
    ((BulkSync.processContact includeMedia resolveMedia now ourNumbers
        db result num (firstMsg :: rest)).1.conversations.map
          Conversation.channelType =
        db.conversations.map Conversation.channelType ∨
      (BulkSync.processContact includeMedia resolveMedia now ourNumbers
        db result num (firstMsg :: rest)).1.conversations.map
          Conversation.channelType =
        db.conversations.map Conversation.channelType ++
          [inferChannelTypeFromTwilioMessage firstMsg]) := by
  simp only [BulkSync.processContact]
  set T := inferChannelTypeFromTwilioMessage firstMsg with hT
  set st1 := BulkSync.resolveChannelContact db result T num with hst1
  set st2 := BulkSync.resolveConversation st1.1 st1.2.1 T st1.2.2 with hst2
  have hs1 := BulkSync.resolveChannelContact_shape db result T num
  have hs2 := BulkSync.resolveConversation_shape st1.1 st1.2.1 T st1.2.2
  rw [← hst1] at hs1
  rw [← hst2] at hs2
  split
  · rename_i db3 result3 x1 x2 e heq
    obtain ⟨hch0, hcv0, hrows0⟩ :=
      BulkSync.processContactMessages_channelType2 heq
    have hch : db3.channels = st2.1.channels := hch0
    have hcv : db3.conversations = st2.1.conversations := hcv0
    have hrows : ∀ row ∈ db3.messages,
        (∃ old ∈ st2.1.messages,
          old.id = row.id ∧ old.channelType = row.channelType) ∨
        row.channelType = T := hrows0
    refine ⟨?_, ?_, ?_⟩
    · intro row hrow hge
      rcases hrows row hrow with ⟨old, hold, hi, hc⟩ | h
      · rw [hs2.2.2, hs1.2.2] at hold
        exfalso
        have := hid old hold
        omega
      · exact h
    · rcases hs1.1 with h | h
      · exact Or.inl (by rw [show (db3, result3, some e).1.channels.map
          Channel.type = db3.channels.map Channel.type from rfl, hch,
          hs2.2.1, h])
      · refine Or.inr ?_
        show db3.channels.map Channel.type = _
        rw [hch, hs2.2.1, h, List.map_append]
        rfl
    · rcases hs2.1 with h | h
      · refine Or.inl ?_
        show db3.conversations.map Conversation.channelType = _
        rw [hcv, h, hs1.2.1]
      · refine Or.inr ?_
        show db3.conversations.map Conversation.channelType = _
        rw [hcv, h, List.map_append, hs1.2.1]
        rfl
  · rename_i db3 result3 lb la heq
    obtain ⟨hch0, hcv0, hrows0⟩ :=
      BulkSync.processContactMessages_channelType2 heq
    have hch : db3.channels = st2.1.channels := hch0
    have hcv : db3.conversations = st2.1.conversations := hcv0
    have hrows : ∀ row ∈ db3.messages,
        (∃ old ∈ st2.1.messages,
          old.id = row.id ∧ old.channelType = row.channelType) ∨
        row.channelType = T := hrows0
    have hmsg : ∀ row ∈ db3.messages, db.nextId ≤ row.id →
        row.channelType = T := by
      intro row hrow hge
      rcases hrows row hrow with ⟨old, hold, hi, hc⟩ | h
      · rw [hs2.2.2, hs1.2.2] at hold
        exfalso
        have := hid old hold
        omega
      · exact h
    refine ⟨?_, ?_, ?_⟩
    · intro row hrow hge
      refine hmsg row ?_ hge
      revert hrow
      show row ∈ (if la > 0 then _ else db3).messages → row ∈ db3.messages
      split
      · exact fun h => h
      · exact fun h => h
    · have hbase : db3.channels.map Channel.type =
          db.channels.map Channel.type ∨
          db3.channels.map Channel.type =
          db.channels.map Channel.type ++ [T] := by
        rcases hs1.1 with h | h
        · exact Or.inl (by rw [hch, hs2.2.1, h])
        · refine Or.inr ?_
          rw [hch, hs2.2.1, h, List.map_append]
          rfl
      show (if la > 0 then _ else db3).channels.map Channel.type = _ ∨
        (if la > 0 then _ else db3).channels.map Channel.type = _
      split
      · exact hbase
      · exact hbase
    · have hbase : db3.conversations.map Conversation.channelType =
          db.conversations.map Conversation.channelType ∨
          db3.conversations.map Conversation.channelType =
          db.conversations.map Conversation.channelType ++ [T] := by
        rcases hs2.1 with h | h
        · exact Or.inl (by rw [hcv, h, hs1.2.1])
        · refine Or.inr ?_
          rw [hcv, h, List.map_append, hs1.2.1]
          rfl
      show (if la > 0 then _ else db3).conversations.map
          Conversation.channelType = _ ∨
        (if la > 0 then _ else db3).conversations.map
          Conversation.channelType = _
      split
      · rw [BulkSync.dbUpdateConversation_channelTypes db3 st2.2.1
          (fun c => { c with
            lastMessage := if lb = "" then none else some lb
            lastMessageAt := some la }) (fun c => rfl)]
        exact hbase
      · exact hbase

/-- Claim C10, witness: the group `+15550002` with first record `SM1`
(an SMS record) on the empty-message store `exDb`. -/
theorem claim_C10_witness :
    (∀ row ∈ (BulkSync.processContact true emptyResolver 999 ["+15550001"]
        exDb ⟨0, 0, 0, 0, 2, []⟩ "+15550002"
        (exRecSent :: [exRecInbound])).1.messages,
      exDb.nextId ≤ row.id →
      row.channelType = inferChannelTypeFromTwilioMessage exRecSent) ∧
    ((BulkSync.processContact true emptyResolver 999 ["+15550001"]
        exDb ⟨0, 0, 0, 0, 2, []⟩ "+15550002"
        (exRecSent :: [exRecInbound])).1.channels.map Channel.type =
        exDb.channels.map Channel.type ∨
      (BulkSync.processContact true emptyResolver 999 ["+15550001"]
        exDb ⟨0, 0, 0, 0, 2, []⟩ "+15550002"
        (exRecSent :: [exRecInbound])).1.channels.map Channel.type =
        exDb.channels.map Channel.type ++
          [inferChannelTypeFromTwilioMessage exRecSent]) ∧
    ((BulkSync.processContact true emptyResolver 999 ["+15550001"]
        exDb ⟨0, 0, 0, 0, 2, []⟩ "+15550002"
        (exRecSent :: [exRecInbound])).1.conversations.map
          Conversation.channelType =
        exDb.conversations.map Conversation.channelType ∨
      (BulkSync.processContact true emptyResolver 999 ["+15550001"]
        exDb ⟨0, 0, 0, 0, 2, []⟩ "+15550002"
        (exRecSent :: [exRecInbound])).1.conversations.map
          Conversation.channelType =
        exDb.conversations.map Conversation.channelType ++
          [inferChannelTypeFromTwilioMessage exRecSent]) :=
  claim_C10_theorem true emptyResolver 999 ["+15550001"] exDb
    ⟨0, 0, 0, 0, 2, []⟩ "+15550002" exRecSent [exRecInbound] (by decide)

/-- Claim C7, witness: on `exDbOther` with the taken SID `SM9`, processing
the counterparty `+15550002` throws, and the loop step catches it,
appends the formatted message and continues with the (empty) remainder. -/
theorem claim_C7_witness :
    BulkSync.bulkLoop true emptyResolver 999 ["+15550001"] exDbOther
      ⟨0, 0, 0, 0, 2, []⟩ [("+15550002", [exRecTaken, exRecInbound])] =
      BulkSync.bulkLoop true emptyResolver 999 ["+15550001"] exDbOther
        { (⟨0, 0, 0, 0, 2, []⟩ : BulkSync.BulkSyncResult) with
            errors := ([] : List String) ++
              ["Error processing contact " ++ "+15550002" ++ ": " ++
                "Unique constraint failed: twilioSid SM9"] } [] := by
  exact claim_C7_theorem.2.1 true emptyResolver 999 ["+15550001"] exDbOther
    ⟨0, 0, 0, 0, 2, []⟩ "+15550002" [exRecTaken, exRecInbound] []
    exDbOther ⟨0, 0, 0, 0, 2, []⟩
    "Unique constraint failed: twilioSid SM9" (by rfl)

/-! ### Claim C8 — the limit keeps the most recent records -/

theorem jsFalsy_of_goodSid {m : TwilioMsg} {s : String}
    (h : goodSid m = some s) : jsFalsy m.sid = false := by
  rcases goodSid_eq_some.mp h with ⟨hs, hne⟩
  rw [hs]
  simp only [jsFalsy]
  exact decide_eq_false hne

namespace HistorySync

/-- A single upsert step never touches the conversation table. -/
theorem processRecord_conversations (ctx : SyncContext)
    (snap : String → Option Message) (db : DB) (counts : SyncCounts)
    (m : TwilioMsg) :
    ((processRecord ctx snap db counts m).1).conversations =
      db.conversations := by
  unfold processRecord
  split
  · rfl
  · split
    · split
      · rfl
      · rfl
    · dsimp only
      split
      · rfl
      · split
        · rfl
        · rfl

/-- The upsert loop never touches the conversation table. -/
theorem processRecords_conversations (ctx : SyncContext)
    (snap : String → Option Message) :
    ∀ (l : List TwilioMsg) (db : DB) (counts : SyncCounts),
      ((processRecords ctx snap db counts l).1).conversations =
        db.conversations := by
  intro l
  induction l with
  | nil => intro db counts; rfl
  | cons hd tl ih =>
    intro db counts
    simp only [processRecords]
    split
    · rename_i db1 counts1 e hstep
      have h := processRecord_conversations ctx snap db counts hd
      rw [hstep] at h
      exact h
    · rename_i db1 counts1 hstep
      have h := processRecord_conversations ctx snap db counts hd
      rw [hstep] at h
      have h2 : db1.conversations = db.conversations := h
      rw [ih db1 counts1]
      exact h2

/-- The summary writer, when the sliced list ends in a record with a
non-falsy SID: a single conversation update from that record's body,
media count and creation time. -/
theorem updateConversationSummary_eq (ctx : SyncContext)
    (sliced : List TwilioMsg) (db : DB) (last : TwilioMsg)
    (hlast : sliced.getLast? = some last)
    (hfal : jsFalsy last.sid = false) :
    updateConversationSummary ctx sliced db =
      dbUpdateConversation db ctx.conversationId (fun c =>
        { c with
            lastMessage :=
              if jsOr last.body
                  (if last.numMedia.getD 0 > 0 then "[Media]" else "") = ""
                then none
                else some (jsOr last.body
                  (if last.numMedia.getD 0 > 0 then "[Media]" else ""))
            lastMessageAt := some (last.dateCreated.getD ctx.now) }) := by
  unfold updateConversationSummary
  rw [hlast]
  dsimp only
  rw [if_neg (by simp [hfal])]

end HistorySync

/-- Claim C8: when the merged stream is longer than the limit, the kept
slice is the tail of the time-ascending merge — exactly `limit` records,
each at least as recent as every dropped record — and a successful run
reports `twilioFetched = limit` and rewrites the conversation summary
from the chronologically last kept record: `lastMessageAt` from its
creation time and `lastMessage` from its body, with the `"[Media]"`
placeholder for a body-less record carrying media. -/
theorem claim_C8_theorem (db : DB) (cid : String)
    (outbound inbound : List TwilioMsg) (limit : Nat) (includeMedia : Bool)
    (resolveMedia : String → List String) (now : Nat)
    (hlen : limit < (mergeTwilioLists outbound inbound).length)
    (hpos : 0 < limit)
    (hconv : (db.conversations.find? (fun c => c.id = cid)).isSome) :
    slicedOf outbound inbound limit =
      (mergeTwilioLists outbound inbound).drop
        ((mergeTwilioLists outbound inbound).length - limit) ∧
    (slicedOf outbound inbound limit).length = limit ∧
    (∀ x ∈ (mergeTwilioLists outbound inbound).take
        ((mergeTwilioLists outbound inbound).length - limit),
      ∀ y ∈ slicedOf outbound inbound limit, timeOf x ≤ timeOf y) ∧
    ∀ (db1 : DB) (counts : SyncCounts),
      HistorySync.processRecords ⟨cid, includeMedia, resolveMedia, now⟩
        (dbFind db) db ⟨0, 0⟩ (slicedOf outbound inbound limit) =
        (db1, counts, none) →
      ∃ last conv,
        (slicedOf outbound inbound limit).getLast? = some last ∧
        (HistorySync.syncConversationFromTwilio db cid outbound inbound limit
          includeMedia resolveMedia now).2 =
            .ok ⟨counts.inserted, counts.updated, limit⟩ ∧
        ((HistorySync.syncConversationFromTwilio db cid outbound inbound limit
          includeMedia resolveMedia now).1).conversations.find?
            (fun c => c.id = cid) = some conv ∧
        conv.lastMessageAt = some (last.dateCreated.getD now) ∧
        conv.lastMessage =
          (if jsOr last.body
              (if last.numMedia.getD 0 > 0 then "[Media]" else "") = ""
            then none
            else some (jsOr last.body
              (if last.numMedia.getD 0 > 0 then "[Media]" else ""))) := by
  have hsl : slicedOf outbound inbound limit =
      (mergeTwilioLists outbound inbound).drop
        ((mergeTwilioLists outbound inbound).length - limit) := by
    unfold slicedOf
    dsimp only
    rw [if_pos (by omega : (mergeTwilioLists outbound inbound).length > limit)]
  have hslen : (slicedOf outbound inbound limit).length = limit := by
    rw [hsl, List.length_drop]
    omega
  refine ⟨hsl, hslen, ?_, ?_⟩
  · intro x hx y hy
    rw [hsl] at hy
    have hs : List.Sorted (fun a b => timeOf a ≤ timeOf b)
        (mergeTwilioLists outbound inbound) := sortByDateCreated_sorted _
    rw [← List.take_append_drop
      ((mergeTwilioLists outbound inbound).length - limit)
      (mergeTwilioLists outbound inbound)] at hs
    exact (List.pairwise_append.mp hs).2.2 x hx y hy
  · intro db1 counts hrun
    have hne : slicedOf outbound inbound limit ≠ [] := by
      intro h0
      rw [h0] at hslen
      simp only [List.length_nil] at hslen
      omega
    obtain ⟨last, hlast⟩ := Option.isSome_iff_exists.mp
      (List.getLast?_isSome.mpr hne)
    have hmem : last ∈ slicedOf outbound inbound limit :=
      List.mem_of_mem_getLast? (Option.mem_def.mpr hlast)
    obtain ⟨s, hgs⟩ := mergeTwilioLists_goodSid (mem_of_mem_slicedOf hmem)
    have hfal : jsFalsy last.sid = false := jsFalsy_of_goodSid hgs
    obtain ⟨c, hc⟩ := Option.isSome_iff_exists.mp hconv
    have hcid : c.id = cid := by
      have h := List.find?_some hc
      simp only [decide_eq_true_eq] at h
      exact h
    have heq := HistorySync.syncConversationFromTwilio_eq db cid outbound
      inbound limit includeMedia resolveMedia now hconv
    rw [hrun] at heq
    dsimp only at heq
    have hcv : db1.conversations = db.conversations := by
      have h := HistorySync.processRecords_conversations
        ⟨cid, includeMedia, resolveMedia, now⟩ (dbFind db)
        (slicedOf outbound inbound limit) db ⟨0, 0⟩
      rw [hrun] at h
      exact h
    refine ⟨last,
      { c with
          lastMessage :=
            if jsOr last.body
                (if last.numMedia.getD 0 > 0 then "[Media]" else "") = ""
              then none
              else some (jsOr last.body
                (if last.numMedia.getD 0 > 0 then "[Media]" else ""))
          lastMessageAt := some (last.dateCreated.getD now) },
      hlast, ?_, ?_, rfl, rfl⟩
    · rw [heq]
      dsimp only
      rw [hslen]
    · rw [heq]
      dsimp only
      rw [HistorySync.updateConversationSummary_eq _ _ _ _ hlast hfal]
      dsimp only
      rw [convFind_dbUpdateConversation db1 cid
        (fun c0 => { c0 with
            lastMessage :=
              if jsOr last.body
                  (if last.numMedia.getD 0 > 0 then "[Media]" else "") = ""
                then none
                else some (jsOr last.body
                  (if last.numMedia.getD 0 > 0 then "[Media]" else ""))
            lastMessageAt := some (last.dateCreated.getD now) })
        (fun c0 => rfl) cid]
      rw [hcv, hc]
      simp only [Option.map_some']
      rw [if_pos hcid]

/-- Claim C8, witness: 3 merged records, limit 2 — `SM1` is dropped, the
kept slice is `[SM2, SM3]`, the run reports 2 inserts and fetched 2, and
the summary comes from the media-only `SM3` with the `"[Media]"`
placeholder. -/
theorem claim_C8_witness :
    ∃ last conv,
      (slicedOf [exRecSent] [exRecInbound, exRecMedia] 2).getLast? =
        some last ∧
      (HistorySync.syncConversationFromTwilio exDb "conv1" [exRecSent]
        [exRecInbound, exRecMedia] 2 true emptyResolver 999).2 =
          .ok ⟨2, 0, 2⟩ ∧
      ((HistorySync.syncConversationFromTwilio exDb "conv1" [exRecSent]
        [exRecInbound, exRecMedia] 2 true emptyResolver 999).1).conversations.find?
          (fun c => c.id = "conv1") = some conv ∧
      conv.lastMessageAt = some (last.dateCreated.getD 999) ∧
      conv.lastMessage =
        (if jsOr last.body
            (if last.numMedia.getD 0 > 0 then "[Media]" else "") = ""
          then none
          else some (jsOr last.body
            (if last.numMedia.getD 0 > 0 then "[Media]" else ""))) := by
  exact (claim_C8_theorem exDb "conv1" [exRecSent] [exRecInbound, exRecMedia]
      2 true emptyResolver 999 (by decide) (by decide) (by decide)).2.2.2
    (HistorySync.processRecords ⟨"conv1", true, emptyResolver, 999⟩
      (dbFind exDb) exDb ⟨0, 0⟩
      (slicedOf [exRecSent] [exRecInbound, exRecMedia] 2)).1
    ⟨2, 0⟩ (by rfl)
